import Mathlib

set_option linter.unusedVariables false

/-!
Formal model of the playback-control core of `source/viewer/RiftViewer.cpp`:
the key debouncing in `getAndUpdateActiveKeys`, the audio/video drift
corrector, the frame readahead pipeline, the pause/menu state machine and
the per-tick structure of `MainLoop`.

Modelling conventions: times are rationals measured in milliseconds
(`float` in the source); the trigonometric functions used by the movement
keys (`Matrix4f::RotationY`) are abstracted as parameters of the session
configuration; calls into the soundtrack and the video file are recorded
as emitted commands/events rather than interpreted, and their queries
(`isPlaying`, `getElapsedMs`, `getFront`) are per-tick inputs.  The
`static` storage of the C++ locals is modelled by an initialize-once guard
in `mainLoopEntry`.
-/

/-- Windows virtual key code `VK_LEFT` (0x25). -/
def vkLeft : Char := Char.ofNat 37

/-- Windows virtual key code `VK_UP` (0x26). -/
def vkUp : Char := Char.ofNat 38

/-- Windows virtual key code `VK_RIGHT` (0x27). -/
def vkRight : Char := Char.ofNat 39

/-- Windows virtual key code `VK_DOWN` (0x28). -/
def vkDown : Char := Char.ofNat 40

/-- The keys `getAndUpdateActiveKeys` looks at, in the iteration order of the
C++ `std::set<char>` (ascending character codes):
`{VK_LEFT, VK_RIGHT, 'W', VK_UP, 'S', VK_DOWN, 'D', 'A', 'C', 'H', 'M', 'B', ' '}`. -/
def keysOfInterest : List Char :=
  [' ', vkLeft, vkUp, vkRight, vkDown, 'A', 'B', 'C', 'D', 'H', 'M', 'S', 'W']

/-- The edge-triggered keys `{'C', 'H', 'M', 'B', ' '}` (set iteration order). -/
def keysActiveOnlyOnKeyPress : List Char := [' ', 'B', 'C', 'H', 'M']

/-- One iteration of the loop body of `getAndUpdateActiveKeys` for key `c`:
state is the pair (depressedKeys, activeKeys accumulated so far). -/
def keyStep (pressed : Char → Bool) (st : List Char × List Char) (c : Char) :
    List Char × List Char :=
  if pressed c then
    if c ∉ st.1 ∨ c ∉ keysActiveOnlyOnKeyPress then
      (st.1.insert c, st.2 ++ [c])
    else st
  else (st.1.erase c, st.2)

/-- `getAndUpdateActiveKeys`: given the raw key state and the global
`depressedKeys` set, returns the updated `depressedKeys` and the list of
active keys for this tick. -/
def getAndUpdateActiveKeys (pressed : Char → Bool) (depressed : List Char) :
    List Char × List Char :=
  keysOfInterest.foldl (keyStep pressed) (depressed, [])

/-- Runs `getAndUpdateActiveKeys` over a sequence of per-tick raw key states,
threading the `depressedKeys` set, and collects each tick's active keys. -/
def runKeyTicks : List (Char → Bool) → List Char → List (List Char)
  | [], _ => []
  | p :: ps, depressed =>
    (getAndUpdateActiveKeys p depressed).2 ::
      runKeyTicks ps (getAndUpdateActiveKeys p depressed).1

/-- The active-key list reported at tick `t`, starting from the empty
`depressedKeys` set. -/
def activeAt (presses : List (Char → Bool)) (t : Nat) : List Char :=
  (runKeyTicks presses []).getD t []

/-- The raw state of key `c` at tick `t`. -/
def pressedAt (presses : List (Char → Bool)) (t : Nat) (c : Char) : Bool :=
  (presses.getD t (fun _ => false)) c

/-- `getVideoTimeMs`: `videoFile.getFront() * (1000.f / FLAGS_fps)`. -/
def getVideoTimeMs (front : Nat) (fps : Rat) : Rat :=
  (front : Rat) * (1000 / fps)

/-- The C-style `(int)` cast applied to the (rational-modelled) float video
time: truncation toward zero. -/
def cppTruncToInt (q : Rat) : Int :=
  if 0 ≤ q then ⌊q⌋ else ⌈q⌉

/-- `kMaxVideoLag`: 90 ms acceptability threshold (Rec. ITU-R BT.1359-1). -/
def kMaxVideoLag : Rat := 90

/-- `kMaxAudioLag`: 5 ms. -/
def kMaxAudioLag : Rat := 5

/-- `kHeadboxFade = 2`. -/
def kHeadboxFade : Int := 2

/-- The `'H'` handler: `fade = fade ? 0 : kHeadboxFade`. -/
def toggleFade (fade : Int) : Int :=
  if fade ≠ 0 then 0 else kHeadboxFade

/-- Commands issued to the `Soundtrack` collaborator. -/
inductive AudioCmd
  | play
  | pauseAudio
  | restart
deriving DecidableEq, Repr

/-- Frame-pipeline events issued to the `VideoFile`/`RigScene`
collaborators: `readBegin`, `readEnd`, `destroyFrame`. -/
inductive FrameEv
  | beginLoad
  | endLoad
  | destroyFrame
deriving DecidableEq, Repr

/-- Result of the per-tick drift-correction block (lines 432-459): the
delay flag, the possibly reset playback-clock origin, and the audio
commands it issues. -/
structure DriftOut where
  delayNextFrame : Bool
  startTime : Rat
  audioCmds : List AudioCmd
deriving DecidableEq, Repr

/-- The "Sync audio and video" block of `MainLoop`: given menu visibility,
the pause flag, the current video frame index, the frame rate, the current
time, the playback-clock origin, the audio elapsed time and whether the
soundtrack reports itself playing, decide whether to delay the next frame,
whether to reset the clock origin, and which audio commands to issue. -/
def driftStep (menuHidden pause : Bool) (front : Nat) (fps now startTime audioTimeMs : Rat)
    (audioIsPlaying : Bool) : DriftOut :=
  if menuHidden && !pause then
    if front = 0 then
      { delayNextFrame := false, startTime := now, audioCmds := [AudioCmd.restart] }
    else
      let elapsedTimeMs := now - startTime
      let referenceTimeMs := if audioIsPlaying then audioTimeMs else elapsedTimeMs
      let videoTimeMs := getVideoTimeMs front fps
      if videoTimeMs > referenceTimeMs + kMaxAudioLag then
        { delayNextFrame := !audioIsPlaying || decide (audioTimeMs ≠ 0),
          startTime := startTime, audioCmds := [] }
      else
        { delayNextFrame := false, startTime := startTime, audioCmds := [] }
  else
    { delayNextFrame := false, startTime := startTime, audioCmds := [] }

/-- A 3-vector of (float-modelled) rationals. -/
structure V3 where
  x : Rat
  y : Rat
  z : Rat
deriving DecidableEq, Repr

/-- Component-wise vector addition (`Vector3f` `+=`). -/
def v3add (a b : V3) : V3 :=
  ⟨a.x + b.x, a.y + b.y, a.z + b.z⟩

/-- `Matrix4f::RotationY(yaw).Transform(v)` with the trigonometric
functions abstracted. -/
def rotationYTransform (cosf sinf : Rat → Rat) (yaw : Rat) (v : V3) : V3 :=
  ⟨cosf yaw * v.x + sinf yaw * v.z, v.y, -(sinf yaw) * v.x + cosf yaw * v.z⟩

/-- The `static` (and global) variables of `RiftViewer.cpp` that survive a
re-entry of `MainLoop`: `pause`, `started`, `fade` (line 331-334), `Yaw`,
`Pos2` (line 353-354), the global `depressedKeys` (line 210) and the
global `startTime` (line 200).  `staticsInit`/`yawPosInit` model the
initialize-once semantics of the C++ `static` local declarations. -/
structure Statics where
  pause : Bool
  started : Bool
  fade : Int
  yaw : Rat
  pos : V3
  yawPosInit : Bool
  depressed : List Char
  startTime : Rat
  staticsInit : Bool
deriving DecidableEq, Repr

/-- The state threaded through one `MainLoop` invocation: the statics plus
the per-session objects (the `MenuScreen` and the scene's
`renderBackground` flag, which are constructed afresh each call). -/
structure SessionSt where
  statics : Statics
  menuHidden : Bool
  fadeOutStarted : Bool
  renderBackground : Bool
deriving DecidableEq, Repr

/-- Session configuration: whether the video has more than one frame,
the configured frame rate, and the float cosine/sine used by
`Matrix4f::RotationY`. -/
structure Cfg where
  multiFrame : Bool
  fps : Rat
  cosf : Rat → Rat
  sinf : Rat → Rat

/-- Outcome of `ovr_SubmitFrame` for a tick. -/
inductive SubmitRes
  | success
  | displayLost
  | otherError
deriving DecidableEq, Repr

/-- The per-tick environment polled by `MainLoop`: session status, raw key
state, the clock, the video front index, the soundtrack's reports, whether
the menu finishes its fade-out during `menu.update()` this tick, the
magnitudes of the two tracked eye positions, and the frame-submission
outcome. -/
structure TickIn where
  shouldQuit : Bool
  isVisible : Bool
  hmdMounted : Bool
  keys : Char → Bool
  now : Rat
  front : Nat
  audioTimeMs : Rat
  audioIsPlaying : Bool
  menuClosesNow : Bool
  eyePosMag0 : Rat
  eyePosMag1 : Rat
  submitRes : SubmitRes

/-- Observable output of one visible tick: audio commands issued, frame
pipeline events issued, the headbox-fade displacement passed to
`scene.render` for each eye (empty when the menu is drawn instead), whether
the menu was drawn, and the drift corrector's delay flag. -/
structure TickOut where
  audioCmds : List AudioCmd
  frameEvents : List FrameEv
  sceneDisplacements : List Rat
  menuDrawn : Bool
  driftDelay : Bool
deriving DecidableEq, Repr

/-- The `' '` (SPACE) case of the key switch (lines 385-399): toggle pause.
First press starts the session by fading the menu out; a later press while
paused resumes, setting the clock origin to
`now - (int)getVideoTimeMs(videoFile)` and playing the soundtrack; a press
while playing pauses and pauses the soundtrack. -/
def spaceAction (cfg : Cfg) (i : TickIn) (s : SessionSt) : SessionSt × List AudioCmd :=
  if s.statics.pause then
    if !s.statics.started then
      ({ s with
          statics := { s.statics with started := true },
          fadeOutStarted := true }, [])
    else
      ({ s with
          statics := { s.statics with
            pause := false,
            startTime := i.now - (cppTruncToInt (getVideoTimeMs i.front cfg.fps) : Rat) } },
        [AudioCmd.play])
  else
    ({ s with statics := { s.statics with pause := true } }, [AudioCmd.pauseAudio])

/-- `Yaw += 0.02f` (VK_LEFT). -/
def yawLeftUpd (s : SessionSt) : SessionSt :=
  { s with statics := { s.statics with yaw := s.statics.yaw + 1/50 } }

/-- `Yaw -= 0.02f` (VK_RIGHT). -/
def yawRightUpd (s : SessionSt) : SessionSt :=
  { s with statics := { s.statics with yaw := s.statics.yaw - 1/50 } }

/-- `Pos2 += Matrix4f::RotationY(Yaw).Transform(v)` (movement keys). -/
def moveUpd (cfg : Cfg) (v : V3) (s : SessionSt) : SessionSt :=
  { s with statics := { s.statics with
      pos := v3add s.statics.pos (rotationYTransform cfg.cosf cfg.sinf s.statics.yaw v) } }

/-- `fade = fade ? 0 : kHeadboxFade` ('H'). -/
def fadeUpd (s : SessionSt) : SessionSt :=
  { s with statics := { s.statics with fade := toggleFade s.statics.fade } }

/-- `scene.renderBackground = !scene.renderBackground` ('B'). -/
def backgroundUpd (s : SessionSt) : SessionSt :=
  { s with renderBackground := !s.renderBackground }

/-- One case of the key-dispatch switch (lines 358-407), applied to the
accumulated state and audio-command list. -/
def applyKey (cfg : Cfg) (i : TickIn) (sa : SessionSt × List AudioCmd) (c : Char) :
    SessionSt × List AudioCmd :=
  if c = vkLeft then (yawLeftUpd sa.1, sa.2)
  else if c = vkRight then (yawRightUpd sa.1, sa.2)
  else if c = 'W' ∨ c = vkUp then (moveUpd cfg ⟨0, 0, -(1/20)⟩ sa.1, sa.2)
  else if c = 'S' ∨ c = vkDown then (moveUpd cfg ⟨0, 0, 1/20⟩ sa.1, sa.2)
  else if c = 'D' then (moveUpd cfg ⟨1/20, 0, 0⟩ sa.1, sa.2)
  else if c = 'A' then (moveUpd cfg ⟨-(1/20), 0, 0⟩ sa.1, sa.2)
  else if c = 'C' then sa
  else if c = ' ' then ((spaceAction cfg i sa.1).1, sa.2 ++ (spaceAction cfg i sa.1).2)
  else if c = 'H' then (fadeUpd sa.1, sa.2)
  else if c = 'B' then (backgroundUpd sa.1, sa.2)
  else sa

/-- Initialization of the block-local statics `Yaw(3.141592f)` and
`Pos2(0,0,0)` on the first tick that reaches the visible branch. -/
def yawPosPhase (s : SessionSt) : SessionSt :=
  if s.statics.yawPosInit then s
  else { s with statics := { s.statics with
      yaw := 3.141592, pos := ⟨0, 0, 0⟩, yawPosInit := true } }

/-- Key-input phase of a visible tick: update `depressedKeys`, then run the
key-dispatch switch over the active keys in order. -/
def keyPhase (cfg : Cfg) (i : TickIn) (s : SessionSt) : SessionSt × List AudioCmd :=
  let ka := getAndUpdateActiveKeys i.keys s.statics.depressed
  let s1 := { s with statics := { s.statics with depressed := ka.1 } }
  ka.2.foldl (applyKey cfg i) (s1, [])

/-- Lines 410-413: `if (!sessionStatus.HmdMounted) { pause = true;
soundtrack.pause(); }`. -/
def mountPhase (i : TickIn) (sa : SessionSt × List AudioCmd) : SessionSt × List AudioCmd :=
  if !i.hmdMounted then
    ({ sa.1 with statics := { sa.1.statics with pause := true } },
      sa.2 ++ [AudioCmd.pauseAudio])
  else sa

/-- Modelled from the spec: `MenuScreen` (its source is not part of this
repository) exposes `update()`, `isHidden` and "an exit callback invoked
once when the menu finishes closing".  The callback body (lines 337-340)
recenters tracking and sets `pause = false`.  The menu can finish closing
only after `startFadeOut()` has been called and only once. -/
def menuPhase (i : TickIn) (s : SessionSt) : SessionSt :=
  if i.menuClosesNow && s.fadeOutStarted && !s.menuHidden then
    { s with menuHidden := true, statics := { s.statics with pause := false } }
  else s

/-- The input-processing part of a visible tick, in source order: static
init of `Yaw`/`Pos2`, key dispatch, the HMD-mounted check, then
`menu.update()` (which may fire the exit callback). -/
def inputPhase (cfg : Cfg) (i : TickIn) (s : SessionSt) : SessionSt × List AudioCmd :=
  let r1 := keyPhase cfg i (yawPosPhase s)
  let r2 := mountPhase i r1
  (menuPhase i r2.1, r2.2)

/-- One visible tick of `MainLoop` (the body of `if (sessionStatus.IsVisible)`),
from key handling through the drift corrector, the frame-advance step and
the per-eye render submissions. -/
def visibleTick (cfg : Cfg) (i : TickIn) (s : SessionSt) : SessionSt × TickOut :=
  let r := inputPhase cfg i s
  let s3 := r.1
  let d := driftStep s3.menuHidden s3.statics.pause i.front cfg.fps i.now
    s3.statics.startTime i.audioTimeMs i.audioIsPlaying
  let s4 := { s3 with statics := { s3.statics with startTime := d.startTime } }
  let advance := !d.delayNextFrame && !s4.statics.pause && cfg.multiFrame
  let fevs := if advance then
      [FrameEv.destroyFrame, FrameEv.endLoad, FrameEv.beginLoad]
    else []
  let disp := if s4.menuHidden then
      [(s4.statics.fade : Rat) * i.eyePosMag0, (s4.statics.fade : Rat) * i.eyePosMag0]
    else []
  (s4,
    { audioCmds := r.2 ++ d.audioCmds,
      frameEvents := fevs,
      sceneDisplacements := disp,
      menuDrawn := !s4.menuHidden,
      driftDelay := d.delayNextFrame })

/-- How the `while (Platform.HandleMessages())` loop exits. -/
inductive LoopExit
  | quitReq
  | lostDisplay
  | otherErr
  | msgsEnd
deriving DecidableEq, Repr

/-- The tick loop of `MainLoop`: checks `ShouldQuit` first each tick (before
any rendering); a visible tick runs `visibleTick` and then submits the
frame, exiting the loop on a submission error; a non-visible tick only
blits the mirror window. -/
def runTicks (cfg : Cfg) : SessionSt → List TickIn → SessionSt × LoopExit × List TickOut
  | s, [] => (s, LoopExit.msgsEnd, [])
  | s, i :: is =>
    if i.shouldQuit then (s, LoopExit.quitReq, [])
    else if i.isVisible then
      let r := visibleTick cfg i s
      match i.submitRes with
      | SubmitRes.success =>
        let rest := runTicks cfg r.1 is
        (rest.1, rest.2.1, r.2 :: rest.2.2)
      | SubmitRes.displayLost => (r.1, LoopExit.lostDisplay, [r.2])
      | SubmitRes.otherError => (r.1, LoopExit.otherErr, [r.2])
    else
      runTicks cfg s is

/-- The value `MainLoop` returns for each way the loop exits: the quit path
clears `retryCreate` before breaking (line 348), the `goto Done` path
returns `retryCreate || (result == ovrError_DisplayLost)` (line 554). -/
def mainLoopReturn (retryCreate : Bool) : LoopExit → Bool
  | LoopExit.quitReq => false
  | LoopExit.lostDisplay => true
  | LoopExit.otherErr => retryCreate
  | LoopExit.msgsEnd => retryCreate

/-- Initialization of the statics declared at lines 331-334
(`pause = true; started = false; fade = kHeadboxFade`), run only on the
first `MainLoop` invocation. -/
def initStatics (g : Statics) : Statics :=
  { g with pause := true, started := false, fade := kHeadboxFade, staticsInit := true }

/-- State at entry of `MainLoop`: the statics persist across invocations
(initialized only once), while the `MenuScreen` and the scene are
constructed afresh (menu visible, fade-out not started, background
rendering off). -/
def mainLoopEntry (g : Statics) : SessionSt :=
  { statics := if g.staticsInit then g else initStatics g,
    menuHidden := false,
    fadeOutStarted := false,
    renderBackground := false }

/-- One full `MainLoop` invocation over a list of tick environments:
returns the final state, the returned bool, and the per-tick outputs. -/
def mainLoopModel (cfg : Cfg) (retryCreate : Bool) (g : Statics) (is : List TickIn) :
    SessionSt × Bool × List TickOut :=
  let r := runTicks cfg (mainLoopEntry g) is
  (r.1, mainLoopReturn retryCreate r.2.1, r.2.2)

/-- The frame loads issued before the tick loop (lines 315-323): a
single-frame video does one `readBegin`/`readEnd` pair; a multi-frame
video issues three `readBegin`s. -/
def initFrameEvents (multiFrame : Bool) : List FrameEv :=
  if multiFrame then [FrameEv.beginLoad, FrameEv.beginLoad, FrameEv.beginLoad]
  else [FrameEv.beginLoad, FrameEv.endLoad]

/-- Concatenation of the frame events of a tick trace. -/
def traceFrameEvents : List TickOut → List FrameEv
  | [] => []
  | t :: ts => t.frameEvents ++ traceFrameEvents ts

/-- Number of in-flight load requests after a list of events:
`readBegin`s issued minus `readEnd`s completed. -/
def inFlight (l : List FrameEv) : Int :=
  (l.count FrameEv.beginLoad : Int) - (l.count FrameEv.endLoad : Int)

/-- All frame events of one session: the startup loads followed by the
loads of the tick loop. -/
def sessionFrameEvents (cfg : Cfg) (g : Statics) (is : List TickIn) : List FrameEv :=
  initFrameEvents cfg.multiFrame ++
    traceFrameEvents (runTicks cfg (mainLoopEntry g) is).2.2

/-- The abstract playback state of the spec's state machine. -/
inductive PlaybackState
  | menuVisible
  | paused
  | playing
deriving DecidableEq, Repr

/-- Abstraction from the modelled state: the menu is authoritative while
visible; otherwise the `pause` flag decides. -/
def playbackState (s : SessionSt) : PlaybackState :=
  if !s.menuHidden then PlaybackState.menuVisible
  else if s.statics.pause then PlaybackState.paused
  else PlaybackState.playing

/-- The transition edges the spec allows: staying put, MenuVisible to
Playing, and the two pause-toggle directions (entering Paused on visibility
loss is a case of Playing to Paused / staying Paused). -/
def allowedEdge (a b : PlaybackState) : Prop :=
  a = b ∨
  (a = PlaybackState.menuVisible ∧ b = PlaybackState.playing) ∨
  (a = PlaybackState.playing ∧ b = PlaybackState.paused) ∨
  (a = PlaybackState.paused ∧ b = PlaybackState.playing)

instance (a b : PlaybackState) : Decidable (allowedEdge a b) := by
  unfold allowedEdge; infer_instance

/-! ## Theorems -/

/-- C1 counterexample: with the menu hidden, playback unpaused, frame index
1 (30 fps, so video time 100/3 ms), clock origin equal to now (wall-clock
reference 0 ms) and the soundtrack inactive with elapsed time 0, the video
is ahead by more than 5 ms and the code sets the delay flag — the claim
says that no delay is applied when audio is inactive. -/
theorem c1_counterexample :
    ¬ ((driftStep true false 1 30 100 100 0 false).delayNextFrame = false) := by
  unfold driftStep
  norm_num [getVideoTimeMs, kMaxAudioLag]

/-- C1 (amended): in a tick in which the drift corrector runs (menu hidden,
not paused, frame index nonzero) and the video time exceeds the reference
by more than the 5 ms audio-lag tolerance, the delay flag is set unless
audio is actively playing and its elapsed time is exactly zero; in
particular when audio is inactive the delay is always applied. -/
theorem c1_delay_condition (front : Nat) (fps now startTime audioTimeMs : Rat)
    (audioIsPlaying : Bool) (hfront : front ≠ 0)
    (hahead : getVideoTimeMs front fps >
      (if audioIsPlaying then audioTimeMs else now - startTime) + kMaxAudioLag) :
    (driftStep true false front fps now startTime audioTimeMs audioIsPlaying).delayNextFrame
      = (!audioIsPlaying || decide (audioTimeMs ≠ 0)) := by
  unfold driftStep
  simp [hfront, hahead]

/-- C1 witness: concrete instance of `c1_delay_condition` with inactive
audio, where the delay is applied. -/
theorem c1_delay_condition_witness :
    (driftStep true false 1 30 100 100 7 false).delayNextFrame = true := by
  have h := c1_delay_condition 1 30 100 100 7 false (by norm_num)
    (by norm_num [getVideoTimeMs, kMaxAudioLag])
  rw [h]
  norm_num

/-- C2: the drift decision function, with reference equal to the audio
elapsed time when the soundtrack is playing and the wall-clock elapsed
time otherwise: at frame index 0 it resets the clock origin to now and
restarts the audio; when the reference exceeds the video time by more than
the 90 ms video-lag tolerance it takes no corrective action (no delay, no
clock reset, no audio command); and when video and reference are within
the tolerance band it takes no action either (normal advance). -/
theorem c2_drift_reference_cases (front : Nat) (fps now startTime audioTimeMs : Rat)
    (audioIsPlaying : Bool) :
    (front = 0 →
      driftStep true false front fps now startTime audioTimeMs audioIsPlaying
        = { delayNextFrame := false, startTime := now, audioCmds := [AudioCmd.restart] }) ∧
    (front ≠ 0 →
      (if audioIsPlaying then audioTimeMs else now - startTime) >
          getVideoTimeMs front fps + kMaxVideoLag →
      driftStep true false front fps now startTime audioTimeMs audioIsPlaying
        = { delayNextFrame := false, startTime := startTime, audioCmds := [] }) ∧
    (front ≠ 0 →
      getVideoTimeMs front fps ≤
          (if audioIsPlaying then audioTimeMs else now - startTime) + kMaxAudioLag →
      (if audioIsPlaying then audioTimeMs else now - startTime) ≤
          getVideoTimeMs front fps + kMaxVideoLag →
      driftStep true false front fps now startTime audioTimeMs audioIsPlaying
        = { delayNextFrame := false, startTime := startTime, audioCmds := [] }) := by
  refine ⟨fun h0 => ?_, fun h0 hbehind => ?_, fun h0 hband1 hband2 => ?_⟩
  · unfold driftStep
    simp [h0]
  · have hnot : ¬ (getVideoTimeMs front fps >
        (if audioIsPlaying then audioTimeMs else now - startTime) + kMaxAudioLag) := by
      unfold kMaxVideoLag at hbehind
      unfold kMaxAudioLag
      push_neg
      nlinarith [hbehind]
    unfold driftStep
    simp [h0, hnot]
  · have hnot : ¬ (getVideoTimeMs front fps >
        (if audioIsPlaying then audioTimeMs else now - startTime) + kMaxAudioLag) := by
      push_neg
      exact hband1
    unfold driftStep
    simp [h0, hnot]

/-- C2 witness: the three cases of `c2_drift_reference_cases` at concrete
inputs — frame 0 resets and restarts; video 50 ms against reference 145 ms
(audio playing) is left alone; video 100 ms against reference 103 ms is
within the band and advances normally. -/
theorem c2_drift_reference_cases_witness :
    (driftStep true false 0 30 100 55 7 true
        = { delayNextFrame := false, startTime := 100, audioCmds := [AudioCmd.restart] }) ∧
    (driftStep true false 2 40 100 0 145 true
        = { delayNextFrame := false, startTime := 0, audioCmds := [] }) ∧
    (driftStep true false 3 30 100 0 103 true
        = { delayNextFrame := false, startTime := 0, audioCmds := [] }) := by
  refine ⟨(c2_drift_reference_cases 0 30 100 55 7 true).1 rfl, ?_, ?_⟩
  · exact (c2_drift_reference_cases 2 40 100 0 145 true).2.1 (by norm_num)
      (by norm_num [getVideoTimeMs, kMaxVideoLag])
  · exact (c2_drift_reference_cases 3 30 100 0 103 true).2.2 (by norm_num)
      (by norm_num [getVideoTimeMs, kMaxAudioLag])
      (by norm_num [getVideoTimeMs, kMaxVideoLag])

/-- Processing a key `k` different from `c` does not change whether `c` is
in the depressed set. -/
theorem keyStep_fst_mem_of_ne (p : Char → Bool) (st : List Char × List Char)
    {c k : Char} (h : c ≠ k) : c ∈ (keyStep p st k).1 ↔ c ∈ st.1 := by
  unfold keyStep
  split_ifs with h1 h2
  · simp [List.mem_insert_iff, h]
  · exact Iff.rfl
  · exact List.mem_erase_of_ne h

/-- Processing a key `k` different from `c` does not change whether `c` is
in the active list. -/
theorem keyStep_snd_mem_of_ne (p : Char → Bool) (st : List Char × List Char)
    {c k : Char} (h : c ≠ k) : c ∈ (keyStep p st k).2 ↔ c ∈ st.2 := by
  unfold keyStep
  split_ifs with h1 h2
  · simp [h]
  · exact Iff.rfl
  · exact Iff.rfl

/-- `keyStep` keeps the depressed set duplicate-free. -/
theorem keyStep_nodup (p : Char → Bool) (st : List Char × List Char) (k : Char)
    (h : st.1.Nodup) : (keyStep p st k).1.Nodup := by
  unfold keyStep
  split_ifs with h1 h2
  · exact h.insert
  · exact h
  · exact h.erase k

/-- Folding `keyStep` over keys not containing `c` changes neither of `c`'s
memberships. -/
theorem foldl_keyStep_not_mem (p : Char → Bool) :
    ∀ (L : List Char) (st : List Char × List Char) (c : Char), c ∉ L →
      ((c ∈ (L.foldl (keyStep p) st).1 ↔ c ∈ st.1) ∧
       (c ∈ (L.foldl (keyStep p) st).2 ↔ c ∈ st.2))
  | [], st, c, h => ⟨Iff.rfl, Iff.rfl⟩
  | k :: L, st, c, h => by
    have hck : c ≠ k := fun e => h (e ▸ List.mem_cons_self k L)
    have hL : c ∉ L := fun m => h (List.mem_cons_of_mem _ m)
    have ih := foldl_keyStep_not_mem p L (keyStep p st k) c hL
    rw [List.foldl_cons]
    exact ⟨ih.1.trans (keyStep_fst_mem_of_ne p st hck),
           ih.2.trans (keyStep_snd_mem_of_ne p st hck)⟩

/-- Folding `keyStep` preserves duplicate-freeness of the depressed set. -/
theorem foldl_keyStep_nodup (p : Char → Bool) :
    ∀ (L : List Char) (st : List Char × List Char), st.1.Nodup →
      (L.foldl (keyStep p) st).1.Nodup
  | [], st, h => h
  | k :: L, st, h =>
    foldl_keyStep_nodup p L (keyStep p st k) (keyStep_nodup p st k h)

/-- Membership of `c` after folding `keyStep` over a duplicate-free key
list containing `c`: `c` ends in the depressed set exactly when pressed,
and is appended to the active list exactly when pressed and either not
previously depressed or level-triggered. -/
theorem foldl_keyStep_mem (p : Char → Bool) :
    ∀ (L : List Char), L.Nodup → ∀ (st : List Char × List Char), st.1.Nodup →
      ∀ (c : Char), c ∈ L →
      ((c ∈ (L.foldl (keyStep p) st).1 ↔ p c = true) ∧
       (c ∈ (L.foldl (keyStep p) st).2 ↔
         (c ∈ st.2 ∨ (p c = true ∧ (c ∉ st.1 ∨ c ∉ keysActiveOnlyOnKeyPress)))))
  | [], _, _, _, c, hc => absurd hc (List.not_mem_nil c)
  | k :: L, hnd, st, hst, c, hc => by
    rcases List.nodup_cons.mp hnd with ⟨hkL, hL⟩
    rw [List.foldl_cons]
    rcases List.mem_cons.mp hc with hck | hcL
    · subst hck
      have ha := foldl_keyStep_not_mem p L (keyStep p st c) c hkL
      refine ⟨ha.1.trans ?_, ha.2.trans ?_⟩
      · unfold keyStep
        split_ifs with h1 h2
        · simp [List.mem_insert_iff, h1]
        · push_neg at h2
          simp [h1, h2.1]
        · simp [hst.mem_erase_iff, h1]
      · unfold keyStep
        split_ifs with h1 h2
        · simp [h1, h2]
        · push_neg at h2
          simp [h1, h2.1, h2.2]
        · simp [h1]
    · have hck : c ≠ k := fun e => hkL (e ▸ hcL)
      have ih := foldl_keyStep_mem p L hL (keyStep p st k)
        (keyStep_nodup p st k hst) c hcL
      refine ⟨ih.1, ih.2.trans ?_⟩
      rw [keyStep_snd_mem_of_ne p st hck, keyStep_fst_mem_of_ne p st hck]

/-- The list of keys of interest is duplicate-free. -/
theorem keysOfInterest_nodup : keysOfInterest.Nodup := by decide

/-- Per-tick characterization of `getAndUpdateActiveKeys` for a key of
interest: it is reported active iff it is pressed and either was not
depressed or is level-triggered, and afterwards it is depressed iff
pressed. -/
theorem getAndUpdateActiveKeys_mem (p : Char → Bool) (dep : List Char)
    (hdep : dep.Nodup) (c : Char) (hc : c ∈ keysOfInterest) :
    (c ∈ (getAndUpdateActiveKeys p dep).1 ↔ p c = true) ∧
    (c ∈ (getAndUpdateActiveKeys p dep).2 ↔
      (p c = true ∧ (c ∉ dep ∨ c ∉ keysActiveOnlyOnKeyPress))) := by
  have h := foldl_keyStep_mem p keysOfInterest keysOfInterest_nodup (dep, [])
    hdep c hc
  exact ⟨h.1, h.2.trans (by simp)⟩

/-- The updated depressed set is duplicate-free. -/
theorem getAndUpdateActiveKeys_nodup (p : Char → Bool) (dep : List Char)
    (hdep : dep.Nodup) : (getAndUpdateActiveKeys p dep).1.Nodup :=
  foldl_keyStep_nodup p keysOfInterest (dep, []) hdep

/-- Characterization of the active keys reported at each tick of a run of
`getAndUpdateActiveKeys` over a sequence of raw key states, threading the
depressed set: a key of interest is active at tick `t` iff it is pressed
at `t` and either (for tick 0) not initially depressed, or (later) was not
pressed at `t-1`, or is level-triggered. -/
theorem runKeyTicks_active_mem (c : Char) (hc : c ∈ keysOfInterest) :
    ∀ (ps : List (Char → Bool)) (dep : List Char), dep.Nodup →
      ∀ t, t < ps.length →
      (c ∈ (runKeyTicks ps dep).getD t [] ↔
        (pressedAt ps t c = true ∧
          ((if t = 0 then c ∉ dep else pressedAt ps (t-1) c = false) ∨
            c ∉ keysActiveOnlyOnKeyPress))) := by
  intro ps
  induction ps with
  | nil => intro dep hdep t ht; simp at ht
  | cons p ps ih =>
    intro dep hdep t ht
    match t with
    | 0 =>
      have h := getAndUpdateActiveKeys_mem p dep hdep c hc
      simp only [runKeyTicks, List.getD_cons_zero, pressedAt, if_pos rfl]
      rw [h.2]
      tauto
    | Nat.succ t' =>
      have hdep' := getAndUpdateActiveKeys_nodup p dep hdep
      have ihh := ih (getAndUpdateActiveKeys p dep).1 hdep' t'
        (by simpa using Nat.lt_of_succ_lt_succ ht)
      simp only [runKeyTicks, List.getD_cons_succ]
      rw [ihh]
      have hpressed : pressedAt (p :: ps) (t' + 1) c = pressedAt ps t' c := rfl
      rw [hpressed]
      match t' with
      | 0 =>
        have hd := (getAndUpdateActiveKeys_mem p dep hdep c hc).1
        have : (c ∈ (getAndUpdateActiveKeys p dep).1) ↔ ¬ (p c = false) := by
          rw [hd]; simp
        constructor
        · rintro ⟨hp, hrest | hlvl⟩
          · refine ⟨hp, Or.inl ?_⟩
            simp only [if_neg (Nat.succ_ne_zero 0)]
            have : pressedAt (p :: ps) 0 c = p c := rfl
            rw [this]
            simp only [if_pos rfl] at hrest
            by_contra hne
            exact hrest (hd.mpr (by revert hne; cases p c <;> simp))
          · exact ⟨hp, Or.inr hlvl⟩
        · rintro ⟨hp, hrest | hlvl⟩
          · refine ⟨hp, Or.inl ?_⟩
            simp only [if_neg (Nat.succ_ne_zero 0)] at hrest
            have hpc : pressedAt (p :: ps) 0 c = p c := rfl
            rw [hpc] at hrest
            simp only [if_pos rfl]
            rw [hd, hrest]
            simp
          · exact ⟨hp, Or.inr hlvl⟩
      | Nat.succ t'' =>
        have h1 : pressedAt ps (t'' + 1 - 1) c = pressedAt (p :: ps) (t'' + 1 + 1 - 1) c := rfl
        simp only [if_neg (Nat.succ_ne_zero t''), if_neg (Nat.succ_ne_zero (t'' + 1))]
        rw [h1]

/-- C6: for every sequence of per-tick raw key states (starting from the
empty depressed set), a level-triggered key of interest is reported active
at a tick exactly when it is physically held at that tick, while an
edge-triggered key is reported active exactly at the rising edges of its
raw state — it must be released before it can fire again, so it fires
exactly once per physical press. -/
theorem c6_edge_vs_level_keys (ps : List (Char → Bool)) (c : Char) (t : Nat)
    (hc : c ∈ keysOfInterest) (ht : t < ps.length) :
    (c ∉ keysActiveOnlyOnKeyPress →
      (c ∈ activeAt ps t ↔ pressedAt ps t c = true)) ∧
    (c ∈ keysActiveOnlyOnKeyPress →
      (c ∈ activeAt ps t ↔
        (pressedAt ps t c = true ∧ (t = 0 ∨ pressedAt ps (t-1) c = false)))) := by
  have h := runKeyTicks_active_mem c hc ps [] List.nodup_nil t ht
  constructor
  · intro hlevel
    rw [activeAt, h]
    simp [hlevel]
  · intro hedge
    rw [activeAt, h]
    by_cases h0 : t = 0
    · subst h0
      simp [hedge]
    · simp [h0, hedge]

/-- C6 witness: SPACE held for two consecutive ticks fires at tick 0 but
not at tick 1, while 'W' held for two ticks fires at both. -/
theorem c6_edge_vs_level_keys_witness :
    (' ' ∈ activeAt [fun c => c == ' ' || c == 'W', fun c => c == ' ' || c == 'W'] 1 ↔
      (pressedAt [fun c => c == ' ' || c == 'W', fun c => c == ' ' || c == 'W'] 1 ' ' = true ∧
        (1 = 0 ∨
          pressedAt [fun c => c == ' ' || c == 'W', fun c => c == ' ' || c == 'W'] 0 ' ' = false))) ∧
    ('W' ∈ activeAt [fun c => c == ' ' || c == 'W', fun c => c == ' ' || c == 'W'] 1 ↔
      pressedAt [fun c => c == ' ' || c == 'W', fun c => c == ' ' || c == 'W'] 1 'W' = true) :=
  ⟨(c6_edge_vs_level_keys _ ' ' 1 (by decide) (by decide)).2 (by decide),
   (c6_edge_vs_level_keys _ 'W' 1 (by decide) (by decide)).1 (by decide)⟩

/-- `spaceAction` only touches `pause`, `started`, `startTime` and
`fadeOutStarted`; everything else is preserved. -/
theorem spaceAction_preserves (cfg : Cfg) (i : TickIn) (s : SessionSt) :
    (spaceAction cfg i s).1.menuHidden = s.menuHidden ∧
    (spaceAction cfg i s).1.statics.depressed = s.statics.depressed ∧
    (spaceAction cfg i s).1.statics.staticsInit = s.statics.staticsInit ∧
    (spaceAction cfg i s).1.statics.yawPosInit = s.statics.yawPosInit ∧
    (spaceAction cfg i s).1.statics.fade = s.statics.fade ∧
    (spaceAction cfg i s).1.statics.yaw = s.statics.yaw ∧
    (spaceAction cfg i s).1.statics.pos = s.statics.pos ∧
    (spaceAction cfg i s).1.renderBackground = s.renderBackground := by
  unfold spaceAction
  cases hp : s.statics.pause <;> cases hs : s.statics.started <;> simp [*]

/-- The observable outcome of the SPACE handler as functions of the
incoming `pause`/`started` flags. -/
theorem spaceAction_outcome (cfg : Cfg) (i : TickIn) (s : SessionSt) :
    (spaceAction cfg i s).1.statics.pause
      = (if s.statics.pause then (if s.statics.started then false else true) else true) ∧
    (spaceAction cfg i s).1.statics.started = (s.statics.started || s.statics.pause) ∧
    (spaceAction cfg i s).1.fadeOutStarted
      = (s.fadeOutStarted || (s.statics.pause && !s.statics.started)) ∧
    (spaceAction cfg i s).1.statics.startTime
      = (if s.statics.pause && s.statics.started then
          i.now - (cppTruncToInt (getVideoTimeMs i.front cfg.fps) : Rat)
         else s.statics.startTime) ∧
    (spaceAction cfg i s).2
      = (if s.statics.pause then (if s.statics.started then [AudioCmd.play] else [])
         else [AudioCmd.pauseAudio]) := by
  unfold spaceAction
  cases hp : s.statics.pause <;> cases hs : s.statics.started <;> simp [*]

/-- Dispatching the SPACE key runs `spaceAction` and appends its audio
commands. -/
theorem applyKey_space (cfg : Cfg) (i : TickIn) (sa : SessionSt × List AudioCmd) :
    applyKey cfg i sa ' '
      = ((spaceAction cfg i sa.1).1, sa.2 ++ (spaceAction cfg i sa.1).2) := by
  unfold applyKey
  rw [if_neg (by decide), if_neg (by decide), if_neg (by decide), if_neg (by decide),
    if_neg (by decide), if_neg (by decide), if_neg (by decide), if_pos rfl]


set_option maxHeartbeats 1000000 in
/-- Case enumeration of the key-dispatch switch: every key either turns
the yaw, moves the position, does nothing, runs the SPACE handler, toggles
the fade or toggles the background. -/
theorem applyKey_cases (cfg : Cfg) (i : TickIn) (sa : SessionSt × List AudioCmd) (c : Char) :
    applyKey cfg i sa c = (yawLeftUpd sa.1, sa.2) ∨
    applyKey cfg i sa c = (yawRightUpd sa.1, sa.2) ∨
    (∃ v, applyKey cfg i sa c = (moveUpd cfg v sa.1, sa.2)) ∨
    applyKey cfg i sa c = sa ∨
    (c = ' ' ∧ applyKey cfg i sa c
        = ((spaceAction cfg i sa.1).1, sa.2 ++ (spaceAction cfg i sa.1).2)) ∨
    (c = 'H' ∧ applyKey cfg i sa c = (fadeUpd sa.1, sa.2)) ∨
    applyKey cfg i sa c = (backgroundUpd sa.1, sa.2) := by
  unfold applyKey
  split_ifs with h1 h2 h3 h4 h5 h6 h7 h8 h9 h10
  · exact Or.inl rfl
  · exact Or.inr (Or.inl rfl)
  · exact Or.inr (Or.inr (Or.inl ⟨_, rfl⟩))
  · exact Or.inr (Or.inr (Or.inl ⟨_, rfl⟩))
  · exact Or.inr (Or.inr (Or.inl ⟨_, rfl⟩))
  · exact Or.inr (Or.inr (Or.inl ⟨_, rfl⟩))
  · exact Or.inr (Or.inr (Or.inr (Or.inl rfl)))
  · exact Or.inr (Or.inr (Or.inr (Or.inr (Or.inl ⟨h8, rfl⟩))))
  · exact Or.inr (Or.inr (Or.inr (Or.inr (Or.inr (Or.inl ⟨h9, rfl⟩)))))
  · exact Or.inr (Or.inr (Or.inr (Or.inr (Or.inr (Or.inr rfl)))))
  · exact Or.inr (Or.inr (Or.inr (Or.inl rfl)))

/-- No key case changes `menuHidden`. -/
theorem applyKey_menuHidden (cfg : Cfg) (i : TickIn) (sa : SessionSt × List AudioCmd)
    (c : Char) : (applyKey cfg i sa c).1.menuHidden = sa.1.menuHidden := by
  rcases applyKey_cases cfg i sa c with h | h | ⟨v, h⟩ | h | ⟨hsp, h⟩ | ⟨hF, h⟩ | h <;>
    rw [h] <;>
    simp [yawLeftUpd, yawRightUpd, moveUpd, fadeUpd, backgroundUpd,
      (spaceAction_preserves cfg i sa.1).1]

/-- No key case changes the depressed set. -/
theorem applyKey_depressed (cfg : Cfg) (i : TickIn) (sa : SessionSt × List AudioCmd)
    (c : Char) : (applyKey cfg i sa c).1.statics.depressed = sa.1.statics.depressed := by
  rcases applyKey_cases cfg i sa c with h | h | ⟨v, h⟩ | h | ⟨hsp, h⟩ | ⟨hF, h⟩ | h <;>
    rw [h] <;>
    simp [yawLeftUpd, yawRightUpd, moveUpd, fadeUpd, backgroundUpd,
      (spaceAction_preserves cfg i sa.1).2.1]

/-- No key case changes the static-initialization marker. -/
theorem applyKey_staticsInit (cfg : Cfg) (i : TickIn) (sa : SessionSt × List AudioCmd)
    (c : Char) : (applyKey cfg i sa c).1.statics.staticsInit = sa.1.statics.staticsInit := by
  rcases applyKey_cases cfg i sa c with h | h | ⟨v, h⟩ | h | ⟨hsp, h⟩ | ⟨hF, h⟩ | h <;>
    rw [h] <;>
    simp [yawLeftUpd, yawRightUpd, moveUpd, fadeUpd, backgroundUpd,
      (spaceAction_preserves cfg i sa.1).2.2.1]

/-- No key case changes the `Yaw`/`Pos2` initialization marker. -/
theorem applyKey_yawPosInit (cfg : Cfg) (i : TickIn) (sa : SessionSt × List AudioCmd)
    (c : Char) : (applyKey cfg i sa c).1.statics.yawPosInit = sa.1.statics.yawPosInit := by
  rcases applyKey_cases cfg i sa c with h | h | ⟨v, h⟩ | h | ⟨hsp, h⟩ | ⟨hF, h⟩ | h <;>
    rw [h] <;>
    simp [yawLeftUpd, yawRightUpd, moveUpd, fadeUpd, backgroundUpd,
      (spaceAction_preserves cfg i sa.1).2.2.2.1]

/-- Keys other than SPACE change neither the pause/started flags, the
clock origin, the fade-out marker, nor the emitted audio commands. -/
theorem applyKey_nonspace (cfg : Cfg) (i : TickIn) (sa : SessionSt × List AudioCmd)
    (c : Char) (hc : c ≠ ' ') :
    (applyKey cfg i sa c).1.statics.pause = sa.1.statics.pause ∧
    (applyKey cfg i sa c).1.statics.started = sa.1.statics.started ∧
    (applyKey cfg i sa c).1.statics.startTime = sa.1.statics.startTime ∧
    (applyKey cfg i sa c).1.fadeOutStarted = sa.1.fadeOutStarted ∧
    (applyKey cfg i sa c).2 = sa.2 := by
  rcases applyKey_cases cfg i sa c with h | h | ⟨v, h⟩ | h | ⟨hsp, h⟩ | ⟨hF, h⟩ | h
  · rw [h]; exact ⟨rfl, rfl, rfl, rfl, rfl⟩
  · rw [h]; exact ⟨rfl, rfl, rfl, rfl, rfl⟩
  · rw [h]; exact ⟨rfl, rfl, rfl, rfl, rfl⟩
  · rw [h]; exact ⟨rfl, rfl, rfl, rfl, rfl⟩
  · exact absurd hsp hc
  · rw [h]; exact ⟨rfl, rfl, rfl, rfl, rfl⟩
  · rw [h]; exact ⟨rfl, rfl, rfl, rfl, rfl⟩

/-- Keys other than 'H' do not change the fade constant. -/
theorem applyKey_fade (cfg : Cfg) (i : TickIn) (sa : SessionSt × List AudioCmd)
    (c : Char) (hc : c ≠ 'H') :
    (applyKey cfg i sa c).1.statics.fade = sa.1.statics.fade := by
  rcases applyKey_cases cfg i sa c with h | h | ⟨v, h⟩ | h | ⟨hsp, h⟩ | ⟨hF, h⟩ | h
  · rw [h]; exact rfl
  · rw [h]; exact rfl
  · rw [h]; exact rfl
  · rw [h]
  · rw [h]; exact (spaceAction_preserves cfg i sa.1).2.2.2.2.1
  · exact absurd hF hc
  · rw [h]; exact rfl

/-- `toggleFade` swaps the two legal fade values. -/
theorem toggleFade_swap : toggleFade kHeadboxFade = 0 ∧ toggleFade 0 = kHeadboxFade := by
  unfold toggleFade kHeadboxFade
  norm_num

/-- Every key case keeps `fade` within its two legal values. -/
theorem applyKey_fade_dom (cfg : Cfg) (i : TickIn) (sa : SessionSt × List AudioCmd)
    (c : Char) (h : sa.1.statics.fade = 0 ∨ sa.1.statics.fade = kHeadboxFade) :
    (applyKey cfg i sa c).1.statics.fade = 0 ∨
      (applyKey cfg i sa c).1.statics.fade = kHeadboxFade := by
  by_cases hc : c = 'H'
  · rcases applyKey_cases cfg i sa c with h' | h' | ⟨v, h'⟩ | h' | ⟨hsp, h'⟩ | ⟨hF, h'⟩ | h' <;>
      rw [h']
    · exact h
    · exact h
    · exact h
    · exact h
    · rw [(spaceAction_preserves cfg i sa.1).2.2.2.2.1]; exact h
    · rcases h with h | h <;>
        simp [fadeUpd, h, toggleFade_swap.1, toggleFade_swap.2]
    · exact h
  · rw [applyKey_fade cfg i sa c hc]
    exact h

/-- Folding the key dispatch over any key list preserves `menuHidden`, the
depressed set, the init markers and the legal fade domain. -/
theorem foldl_applyKey_pres (cfg : Cfg) (i : TickIn) :
    ∀ (ks : List Char) (sa : SessionSt × List AudioCmd),
      ((ks.foldl (applyKey cfg i) sa).1.menuHidden = sa.1.menuHidden) ∧
      ((ks.foldl (applyKey cfg i) sa).1.statics.depressed = sa.1.statics.depressed) ∧
      ((ks.foldl (applyKey cfg i) sa).1.statics.staticsInit = sa.1.statics.staticsInit) ∧
      ((ks.foldl (applyKey cfg i) sa).1.statics.yawPosInit = sa.1.statics.yawPosInit) ∧
      ((sa.1.statics.fade = 0 ∨ sa.1.statics.fade = kHeadboxFade) →
        ((ks.foldl (applyKey cfg i) sa).1.statics.fade = 0 ∨
         (ks.foldl (applyKey cfg i) sa).1.statics.fade = kHeadboxFade))
  | [], sa => ⟨rfl, rfl, rfl, rfl, fun h => h⟩
  | k :: ks, sa => by
    have ih := foldl_applyKey_pres cfg i ks (applyKey cfg i sa k)
    rw [List.foldl_cons]
    exact ⟨ih.1.trans (applyKey_menuHidden cfg i sa k),
      ih.2.1.trans (applyKey_depressed cfg i sa k),
      ih.2.2.1.trans (applyKey_staticsInit cfg i sa k),
      ih.2.2.2.1.trans (applyKey_yawPosInit cfg i sa k),
      fun h => ih.2.2.2.2 (applyKey_fade_dom cfg i sa k h)⟩

/-- Folding the key dispatch over keys not containing SPACE leaves the
pause/started flags, clock origin, fade-out marker and command list
unchanged. -/
theorem foldl_applyKey_no_space (cfg : Cfg) (i : TickIn) :
    ∀ (ks : List Char) (sa : SessionSt × List AudioCmd), ' ' ∉ ks →
      ((ks.foldl (applyKey cfg i) sa).1.statics.pause = sa.1.statics.pause) ∧
      ((ks.foldl (applyKey cfg i) sa).1.statics.started = sa.1.statics.started) ∧
      ((ks.foldl (applyKey cfg i) sa).1.statics.startTime = sa.1.statics.startTime) ∧
      ((ks.foldl (applyKey cfg i) sa).1.fadeOutStarted = sa.1.fadeOutStarted) ∧
      ((ks.foldl (applyKey cfg i) sa).2 = sa.2)
  | [], sa, _ => ⟨rfl, rfl, rfl, rfl, rfl⟩
  | k :: ks, sa, h => by
    have hk : k ≠ ' ' := fun e => h (e ▸ List.mem_cons_self k ks)
    have hks : ' ' ∉ ks := fun m => h (List.mem_cons_of_mem _ m)
    have ha := applyKey_nonspace cfg i sa k hk
    have ih := foldl_applyKey_no_space cfg i ks (applyKey cfg i sa k) hks
    rw [List.foldl_cons]
    exact ⟨ih.1.trans ha.1, ih.2.1.trans ha.2.1, ih.2.2.1.trans ha.2.2.1,
      ih.2.2.2.1.trans ha.2.2.2.1, ih.2.2.2.2.trans ha.2.2.2.2⟩

/-- Folding the key dispatch over a duplicate-free key list containing
SPACE applies the SPACE handler exactly once: the resulting pause/started
flags, fade-out marker, clock origin and audio commands are those of
`spaceAction` on the incoming state. -/
theorem foldl_applyKey_space (cfg : Cfg) (i : TickIn) :
    ∀ (ks : List Char), ks.Nodup → ' ' ∈ ks → ∀ (sa : SessionSt × List AudioCmd),
      ((ks.foldl (applyKey cfg i) sa).1.statics.pause
        = (if sa.1.statics.pause then (if sa.1.statics.started then false else true)
           else true)) ∧
      ((ks.foldl (applyKey cfg i) sa).1.statics.started
        = (sa.1.statics.started || sa.1.statics.pause)) ∧
      ((ks.foldl (applyKey cfg i) sa).1.fadeOutStarted
        = (sa.1.fadeOutStarted || (sa.1.statics.pause && !sa.1.statics.started))) ∧
      ((ks.foldl (applyKey cfg i) sa).1.statics.startTime
        = (if sa.1.statics.pause && sa.1.statics.started then
            i.now - (cppTruncToInt (getVideoTimeMs i.front cfg.fps) : Rat)
           else sa.1.statics.startTime)) ∧
      ((ks.foldl (applyKey cfg i) sa).2
        = sa.2 ++ (if sa.1.statics.pause then
            (if sa.1.statics.started then [AudioCmd.play] else [])
           else [AudioCmd.pauseAudio]))
  | [], _, hm, _ => absurd hm (List.not_mem_nil ' ')
  | k :: ks, hnd, hm, sa => by
    rcases List.nodup_cons.mp hnd with ⟨hkks, hnd'⟩
    rw [List.foldl_cons]
    by_cases hk : k = ' '
    · subst hk
      have hks : ' ' ∉ ks := hkks
      have hns := foldl_applyKey_no_space cfg i ks (applyKey cfg i sa ' ') hks
      have hsp := applyKey_space cfg i sa
      have ho := spaceAction_outcome cfg i sa.1
      refine ⟨hns.1.trans ?_, hns.2.1.trans ?_, hns.2.2.2.1.trans ?_,
        hns.2.2.1.trans ?_, hns.2.2.2.2.trans ?_⟩
      · rw [hsp]; exact ho.1
      · rw [hsp]; exact ho.2.1
      · rw [hsp]; exact ho.2.2.1
      · rw [hsp]; exact ho.2.2.2.1
      · rw [hsp]
        show sa.2 ++ (spaceAction cfg i sa.1).2 = _
        rw [ho.2.2.2.2]
    · have hm' : ' ' ∈ ks := by
        rcases List.mem_cons.mp hm with e | e
        · exact absurd e.symm hk
        · exact e
      have ha := applyKey_nonspace cfg i sa k hk
      have ih := foldl_applyKey_space cfg i ks hnd' hm' (applyKey cfg i sa k)
      rw [ha.1, ha.2.1, ha.2.2.1, ha.2.2.2.1, ha.2.2.2.2] at ih
      exact ih

/-- Each `keyStep` either leaves the active list unchanged or appends the
processed key. -/
theorem keyStep_snd_shape (p : Char → Bool) (st : List Char × List Char) (k : Char) :
    (keyStep p st k).2 = st.2 ∨ (keyStep p st k).2 = st.2 ++ [k] := by
  unfold keyStep
  split_ifs <;> simp

/-- The active list produced by the key scan extends the accumulator with
a subsequence of the scanned keys. -/
theorem foldl_keyStep_snd_sublist (p : Char → Bool) :
    ∀ (L : List Char) (st : List Char × List Char),
      ∃ u, (L.foldl (keyStep p) st).2 = st.2 ++ u ∧ u.Sublist L
  | [], st => ⟨[], (List.append_nil _).symm, List.nil_sublist []⟩
  | k :: L, st => by
    rw [List.foldl_cons]
    obtain ⟨u, hu, hsub⟩ := foldl_keyStep_snd_sublist p L (keyStep p st k)
    rcases keyStep_snd_shape p st k with hs | hs
    · exact ⟨u, by rw [hu, hs], hsub.cons k⟩
    · refine ⟨k :: u, ?_, hsub.cons₂ k⟩
      rw [hu, hs, List.append_assoc]
      rfl

/-- The active-key list of a tick has no duplicates. -/
theorem getAndUpdateActiveKeys_snd_nodup (p : Char → Bool) (dep : List Char) :
    (getAndUpdateActiveKeys p dep).2.Nodup := by
  obtain ⟨u, hu, hsub⟩ := foldl_keyStep_snd_sublist p keysOfInterest (dep, [])
  unfold getAndUpdateActiveKeys
  rw [hu]
  simpa using keysOfInterest_nodup.sublist hsub

/-- The static `Yaw`/`Pos2` initialization touches nothing else. -/
theorem yawPosPhase_pres (s : SessionSt) :
    (yawPosPhase s).statics.pause = s.statics.pause ∧
    (yawPosPhase s).statics.started = s.statics.started ∧
    (yawPosPhase s).statics.startTime = s.statics.startTime ∧
    (yawPosPhase s).fadeOutStarted = s.fadeOutStarted ∧
    (yawPosPhase s).menuHidden = s.menuHidden ∧
    (yawPosPhase s).statics.depressed = s.statics.depressed ∧
    (yawPosPhase s).statics.staticsInit = s.statics.staticsInit ∧
    (yawPosPhase s).statics.fade = s.statics.fade := by
  unfold yawPosPhase
  split_ifs <;> simp

/-- Key phase: `menuHidden`, the init markers and the legal fade domain
pass through; the depressed set becomes the scan's update. -/
theorem keyPhase_pres (cfg : Cfg) (i : TickIn) (s : SessionSt) :
    (keyPhase cfg i s).1.menuHidden = s.menuHidden ∧
    (keyPhase cfg i s).1.statics.depressed
      = (getAndUpdateActiveKeys i.keys s.statics.depressed).1 ∧
    (keyPhase cfg i s).1.statics.staticsInit = s.statics.staticsInit ∧
    (keyPhase cfg i s).1.statics.yawPosInit = s.statics.yawPosInit ∧
    ((s.statics.fade = 0 ∨ s.statics.fade = kHeadboxFade) →
      ((keyPhase cfg i s).1.statics.fade = 0 ∨
       (keyPhase cfg i s).1.statics.fade = kHeadboxFade)) := by
  have hp := foldl_applyKey_pres cfg i (getAndUpdateActiveKeys i.keys s.statics.depressed).2
    ({ s with statics := { s.statics with
        depressed := (getAndUpdateActiveKeys i.keys s.statics.depressed).1 } }, [])
  unfold keyPhase
  exact ⟨hp.1, hp.2.1, hp.2.2.1, hp.2.2.2.1, hp.2.2.2.2⟩

/-- Key phase on a tick whose active keys do not include SPACE: the
playback flags, clock origin and fade-out marker are unchanged and no
audio command is emitted. -/
theorem keyPhase_no_space (cfg : Cfg) (i : TickIn) (s : SessionSt)
    (h : ' ' ∉ (getAndUpdateActiveKeys i.keys s.statics.depressed).2) :
    (keyPhase cfg i s).1.statics.pause = s.statics.pause ∧
    (keyPhase cfg i s).1.statics.started = s.statics.started ∧
    (keyPhase cfg i s).1.statics.startTime = s.statics.startTime ∧
    (keyPhase cfg i s).1.fadeOutStarted = s.fadeOutStarted ∧
    (keyPhase cfg i s).2 = [] := by
  have hf := foldl_applyKey_no_space cfg i (getAndUpdateActiveKeys i.keys s.statics.depressed).2
    ({ s with statics := { s.statics with
        depressed := (getAndUpdateActiveKeys i.keys s.statics.depressed).1 } }, []) h
  unfold keyPhase
  exact ⟨hf.1, hf.2.1, hf.2.2.1, hf.2.2.2.1, hf.2.2.2.2⟩

/-- Key phase on a tick whose active keys include SPACE: the SPACE handler
runs exactly once on the incoming flags. -/
theorem keyPhase_space (cfg : Cfg) (i : TickIn) (s : SessionSt)
    (h : ' ' ∈ (getAndUpdateActiveKeys i.keys s.statics.depressed).2) :
    (keyPhase cfg i s).1.statics.pause
      = (if s.statics.pause then (if s.statics.started then false else true) else true) ∧
    (keyPhase cfg i s).1.statics.started = (s.statics.started || s.statics.pause) ∧
    (keyPhase cfg i s).1.fadeOutStarted
      = (s.fadeOutStarted || (s.statics.pause && !s.statics.started)) ∧
    (keyPhase cfg i s).1.statics.startTime
      = (if s.statics.pause && s.statics.started then
          i.now - (cppTruncToInt (getVideoTimeMs i.front cfg.fps) : Rat)
         else s.statics.startTime) ∧
    (keyPhase cfg i s).2
      = (if s.statics.pause then (if s.statics.started then [AudioCmd.play] else [])
         else [AudioCmd.pauseAudio]) := by
  have hf := foldl_applyKey_space cfg i (getAndUpdateActiveKeys i.keys s.statics.depressed).2
    (getAndUpdateActiveKeys_snd_nodup i.keys s.statics.depressed) h
    ({ s with statics := { s.statics with
        depressed := (getAndUpdateActiveKeys i.keys s.statics.depressed).1 } }, [])
  unfold keyPhase
  exact ⟨hf.1, hf.2.1, hf.2.2.1, hf.2.2.2.1, hf.2.2.2.2.trans (List.nil_append _)⟩

/-- The HMD-mounted check forces the pause flag and a soundtrack pause
command when the headset is off, and otherwise does nothing. -/
theorem mountPhase_spec (i : TickIn) (sa : SessionSt × List AudioCmd) :
    (mountPhase i sa).1.menuHidden = sa.1.menuHidden ∧
    (mountPhase i sa).1.fadeOutStarted = sa.1.fadeOutStarted ∧
    (mountPhase i sa).1.statics.started = sa.1.statics.started ∧
    (mountPhase i sa).1.statics.startTime = sa.1.statics.startTime ∧
    (mountPhase i sa).1.statics.depressed = sa.1.statics.depressed ∧
    (mountPhase i sa).1.statics.staticsInit = sa.1.statics.staticsInit ∧
    (mountPhase i sa).1.statics.yawPosInit = sa.1.statics.yawPosInit ∧
    (mountPhase i sa).1.statics.fade = sa.1.statics.fade ∧
    (mountPhase i sa).1.statics.pause
      = (if i.hmdMounted then sa.1.statics.pause else true) ∧
    (mountPhase i sa).2 = (if i.hmdMounted then sa.2 else sa.2 ++ [AudioCmd.pauseAudio]) := by
  cases h : i.hmdMounted <;> simp [mountPhase, h]

/-- The menu-exit callback phase: it can only hide the menu (never show
it), does so exactly when the menu closes this tick after a fade-out was
started, and then clears the pause flag. -/
theorem menuPhase_spec (i : TickIn) (s : SessionSt) :
    (menuPhase i s).statics.started = s.statics.started ∧
    (menuPhase i s).statics.startTime = s.statics.startTime ∧
    (menuPhase i s).statics.depressed = s.statics.depressed ∧
    (menuPhase i s).statics.staticsInit = s.statics.staticsInit ∧
    (menuPhase i s).statics.yawPosInit = s.statics.yawPosInit ∧
    (menuPhase i s).statics.fade = s.statics.fade ∧
    (menuPhase i s).fadeOutStarted = s.fadeOutStarted ∧
    (menuPhase i s).menuHidden = (s.menuHidden || (i.menuClosesNow && s.fadeOutStarted)) ∧
    (menuPhase i s).statics.pause
      = (if i.menuClosesNow && s.fadeOutStarted && !s.menuHidden then false
         else s.statics.pause) := by
  cases hmc : i.menuClosesNow <;> cases hfo : s.fadeOutStarted <;>
    cases hmh : s.menuHidden <;> simp [menuPhase, hmc, hfo, hmh]

/-- The state after a visible tick agrees with the input-phase state on
every field except the clock origin, which the drift corrector may reset. -/
theorem visibleTick_fst (cfg : Cfg) (i : TickIn) (s : SessionSt) :
    (visibleTick cfg i s).1.menuHidden = (inputPhase cfg i s).1.menuHidden ∧
    (visibleTick cfg i s).1.statics.pause = (inputPhase cfg i s).1.statics.pause ∧
    (visibleTick cfg i s).1.statics.started = (inputPhase cfg i s).1.statics.started ∧
    (visibleTick cfg i s).1.fadeOutStarted = (inputPhase cfg i s).1.fadeOutStarted ∧
    (visibleTick cfg i s).1.statics.depressed = (inputPhase cfg i s).1.statics.depressed ∧
    (visibleTick cfg i s).1.statics.staticsInit = (inputPhase cfg i s).1.statics.staticsInit ∧
    (visibleTick cfg i s).1.statics.yawPosInit = (inputPhase cfg i s).1.statics.yawPosInit ∧
    (visibleTick cfg i s).1.statics.fade = (inputPhase cfg i s).1.statics.fade :=
  ⟨rfl, rfl, rfl, rfl, rfl, rfl, rfl, rfl⟩

/-- `inputPhase` unfolded. -/
theorem inputPhase_def (cfg : Cfg) (i : TickIn) (s : SessionSt) :
    inputPhase cfg i s
      = (menuPhase i (mountPhase i (keyPhase cfg i (yawPosPhase s))).1,
         (mountPhase i (keyPhase cfg i (yawPosPhase s))).2) := rfl

/-- Composed characterization of the input phase: how `menuHidden`, the
pause flag, the started flag, the fade-out marker, the clock origin and
the emitted audio commands relate to the key-phase results, the mounted
flag and the menu-close event. -/
theorem inputPhase_spec (cfg : Cfg) (i : TickIn) (s : SessionSt) :
    (inputPhase cfg i s).1.menuHidden
      = (s.menuHidden ||
          (i.menuClosesNow && (keyPhase cfg i (yawPosPhase s)).1.fadeOutStarted)) ∧
    (inputPhase cfg i s).1.statics.pause
      = (if i.menuClosesNow && (keyPhase cfg i (yawPosPhase s)).1.fadeOutStarted
            && !s.menuHidden then false
         else if i.hmdMounted then (keyPhase cfg i (yawPosPhase s)).1.statics.pause
         else true) ∧
    (inputPhase cfg i s).1.statics.started
      = (keyPhase cfg i (yawPosPhase s)).1.statics.started ∧
    (inputPhase cfg i s).1.fadeOutStarted
      = (keyPhase cfg i (yawPosPhase s)).1.fadeOutStarted ∧
    (inputPhase cfg i s).2
      = (if i.hmdMounted then (keyPhase cfg i (yawPosPhase s)).2
         else (keyPhase cfg i (yawPosPhase s)).2 ++ [AudioCmd.pauseAudio]) ∧
    (inputPhase cfg i s).1.statics.startTime
      = (keyPhase cfg i (yawPosPhase s)).1.statics.startTime := by
  obtain ⟨mp_mh, mp_fo, mp_st, mp_time, mp_dep, mp_si, mp_ypi, mp_fade, mp_pause, mp_cmds⟩ :=
    mountPhase_spec i (keyPhase cfg i (yawPosPhase s))
  obtain ⟨me_st, me_time, me_dep, me_si, me_ypi, me_fade, me_fo, me_mh, me_pause⟩ :=
    menuPhase_spec i (mountPhase i (keyPhase cfg i (yawPosPhase s))).1
  obtain ⟨kp_mh, kp_dep, kp_si, kp_ypi, kp_fade⟩ := keyPhase_pres cfg i (yawPosPhase s)
  obtain ⟨yp_pause, yp_started, yp_time, yp_fo, yp_mh, yp_dep, yp_si, yp_fade⟩ :=
    yawPosPhase_pres s
  rw [inputPhase_def]
  refine ⟨?_, ?_, ?_, ?_, ?_, ?_⟩
  · show (menuPhase i (mountPhase i (keyPhase cfg i (yawPosPhase s))).1).menuHidden = _
    rw [me_mh, mp_mh, mp_fo, kp_mh, yp_mh]
  · show (menuPhase i (mountPhase i (keyPhase cfg i (yawPosPhase s))).1).statics.pause = _
    rw [me_pause, mp_pause, mp_fo, mp_mh, kp_mh, yp_mh]
  · show (menuPhase i (mountPhase i (keyPhase cfg i (yawPosPhase s))).1).statics.started = _
    rw [me_st, mp_st]
  · show (menuPhase i (mountPhase i (keyPhase cfg i (yawPosPhase s))).1).fadeOutStarted = _
    rw [me_fo, mp_fo]
  · exact mp_cmds
  · show (menuPhase i (mountPhase i (keyPhase cfg i (yawPosPhase s))).1).statics.startTime = _
    rw [me_time, mp_time]

/-- The audio commands of a visible tick are the input phase's followed by
the drift corrector's. -/
theorem visibleTick_audio (cfg : Cfg) (i : TickIn) (s : SessionSt) :
    (visibleTick cfg i s).2.audioCmds
      = (inputPhase cfg i s).2 ++
        (driftStep (inputPhase cfg i s).1.menuHidden (inputPhase cfg i s).1.statics.pause
          i.front cfg.fps i.now (inputPhase cfg i s).1.statics.startTime i.audioTimeMs
          i.audioIsPlaying).audioCmds := rfl

/-- The frame events of a visible tick. -/
theorem visibleTick_frames (cfg : Cfg) (i : TickIn) (s : SessionSt) :
    (visibleTick cfg i s).2.frameEvents
      = (if (!(driftStep (inputPhase cfg i s).1.menuHidden
              (inputPhase cfg i s).1.statics.pause i.front cfg.fps i.now
              (inputPhase cfg i s).1.statics.startTime i.audioTimeMs
              i.audioIsPlaying).delayNextFrame
            && !(inputPhase cfg i s).1.statics.pause && cfg.multiFrame) then
          [FrameEv.destroyFrame, FrameEv.endLoad, FrameEv.beginLoad]
         else []) := rfl

/-- The scene displacements of a visible tick. -/
theorem visibleTick_disp (cfg : Cfg) (i : TickIn) (s : SessionSt) :
    (visibleTick cfg i s).2.sceneDisplacements
      = (if (inputPhase cfg i s).1.menuHidden then
          [((inputPhase cfg i s).1.statics.fade : Rat) * i.eyePosMag0,
           ((inputPhase cfg i s).1.statics.fade : Rat) * i.eyePosMag0]
         else []) := rfl

/-- The new clock origin of a visible tick is the drift corrector's. -/
theorem visibleTick_startTime (cfg : Cfg) (i : TickIn) (s : SessionSt) :
    (visibleTick cfg i s).1.statics.startTime
      = (driftStep (inputPhase cfg i s).1.menuHidden (inputPhase cfg i s).1.statics.pause
          i.front cfg.fps i.now (inputPhase cfg i s).1.statics.startTime i.audioTimeMs
          i.audioIsPlaying).startTime := rfl

/-- Whether the menu was drawn on a visible tick. -/
theorem visibleTick_menuDrawn (cfg : Cfg) (i : TickIn) (s : SessionSt) :
    (visibleTick cfg i s).2.menuDrawn = !(inputPhase cfg i s).1.menuHidden := rfl

/-- C4: over one visible tick, the playback state moves only along the
allowed edges (staying put, MenuVisible to Playing, Playing to Paused,
Paused to Playing); the menu-hiding transition happens only when the menu
finishes closing (the exit-callback/confirm path); once the menu is
hidden, Playing enters Paused only through the SPACE toggle or loss of
head-mount, and Paused re-enters Playing only through the SPACE toggle
with the headset mounted and the session started; and when the headset is
not mounted the tick pauses the audio and, with the menu hidden, forces
the Paused state regardless of the keys pressed. -/
theorem c4_transitions (cfg : Cfg) (i : TickIn) (s : SessionSt) :
    allowedEdge (playbackState s) (playbackState (visibleTick cfg i s).1) ∧
    (s.menuHidden = false → (visibleTick cfg i s).1.menuHidden = true →
      i.menuClosesNow = true) ∧
    (s.menuHidden = true → s.statics.pause = false →
      (visibleTick cfg i s).1.statics.pause = true →
      (' ' ∈ (getAndUpdateActiveKeys i.keys s.statics.depressed).2 ∨
        i.hmdMounted = false)) ∧
    (s.menuHidden = true → s.statics.pause = true →
      (visibleTick cfg i s).1.statics.pause = false →
      (' ' ∈ (getAndUpdateActiveKeys i.keys s.statics.depressed).2 ∧
        i.hmdMounted = true ∧ s.statics.started = true)) ∧
    (i.hmdMounted = false →
      AudioCmd.pauseAudio ∈ (visibleTick cfg i s).2.audioCmds ∧
      (s.menuHidden = true → (visibleTick cfg i s).1.statics.pause = true)) := by
  obtain ⟨ip_mh, ip_pause, ip_started, ip_fo, ip_cmds, ip_time⟩ := inputPhase_spec cfg i s
  obtain ⟨vt_mh, vt_pause, vt_started, vt_fo, vt_dep, vt_si, vt_ypi, vt_fade⟩ :=
    visibleTick_fst cfg i s
  obtain ⟨yp_pause, yp_started, yp_time, yp_fo, yp_mh, yp_dep, yp_si, yp_fade⟩ :=
    yawPosPhase_pres s
  have hkeys : getAndUpdateActiveKeys i.keys (yawPosPhase s).statics.depressed
      = getAndUpdateActiveKeys i.keys s.statics.depressed := by rw [yp_dep]
  refine ⟨?_, ?_, ?_, ?_, ?_⟩
  · by_cases hmh : s.menuHidden = true
    · have hmh' : (visibleTick cfg i s).1.menuHidden = true := by
        rw [vt_mh, ip_mh, hmh]
        simp
      cases hp : s.statics.pause <;>
        cases hp' : (visibleTick cfg i s).1.statics.pause <;>
        simp [playbackState, hmh, hmh', hp, hp', allowedEdge]
    · have hmh0 : s.menuHidden = false := by
        revert hmh; cases s.menuHidden <;> simp
      cases hb : (visibleTick cfg i s).1.menuHidden
      · simp [playbackState, hmh0, hb, allowedEdge]
      · have hcond : (i.menuClosesNow
            && (keyPhase cfg i (yawPosPhase s)).1.fadeOutStarted) = true := by
          rw [vt_mh, ip_mh, hmh0] at hb
          simpa using hb
        have hp' : (visibleTick cfg i s).1.statics.pause = false := by
          rw [vt_pause, ip_pause, hmh0]
          simp [hcond]
        simp [playbackState, hmh0, hb, hp', allowedEdge]
  · intro hmh0 hb
    rw [vt_mh, ip_mh, hmh0] at hb
    simp only [Bool.false_or, Bool.and_eq_true] at hb
    exact hb.1
  · intro hmh hp hp'
    rw [vt_pause, ip_pause, hmh] at hp'
    simp only [Bool.not_true, Bool.and_false, Bool.false_eq_true, if_false] at hp'
    by_cases hm : i.hmdMounted = true
    · rw [if_pos hm] at hp'
      left
      by_cases hsp : ' ' ∈ (getAndUpdateActiveKeys i.keys s.statics.depressed).2
      · exact hsp
      · exfalso
        have hsp' : ' ' ∉ (getAndUpdateActiveKeys i.keys
            (yawPosPhase s).statics.depressed).2 := by rw [hkeys]; exact hsp
        obtain ⟨kpP, -, -, -, -⟩ := keyPhase_no_space cfg i (yawPosPhase s) hsp'
        rw [kpP, yp_pause, hp] at hp'
        exact Bool.false_ne_true hp'
    · right
      revert hm; cases i.hmdMounted <;> simp
  · intro hmh hp hp'
    rw [vt_pause, ip_pause, hmh] at hp'
    simp only [Bool.not_true, Bool.and_false, Bool.false_eq_true, if_false] at hp'
    by_cases hm : i.hmdMounted = true
    · rw [if_pos hm] at hp'
      by_cases hsp : ' ' ∈ (getAndUpdateActiveKeys i.keys s.statics.depressed).2
      · refine ⟨hsp, hm, ?_⟩
        have hsp' : ' ' ∈ (getAndUpdateActiveKeys i.keys
            (yawPosPhase s).statics.depressed).2 := by rw [hkeys]; exact hsp
        obtain ⟨kpP, -, -, -, -⟩ := keyPhase_space cfg i (yawPosPhase s) hsp'
        rw [kpP, yp_pause, yp_started, hp] at hp'
        by_cases hst : s.statics.started = true
        · exact hst
        · exfalso
          have hst0 : s.statics.started = false := by
            revert hst; cases s.statics.started <;> simp
          rw [hst0] at hp'
          simp at hp'
      · exfalso
        have hsp' : ' ' ∉ (getAndUpdateActiveKeys i.keys
            (yawPosPhase s).statics.depressed).2 := by rw [hkeys]; exact hsp
        obtain ⟨kpP, -, -, -, -⟩ := keyPhase_no_space cfg i (yawPosPhase s) hsp'
        rw [kpP, yp_pause, hp] at hp'
        simp at hp'
    · exfalso
      have hm0 : i.hmdMounted = false := by
        revert hm; cases i.hmdMounted <;> simp
      rw [hm0] at hp'
      simp at hp'

  · intro hm
    constructor
    · rw [visibleTick_audio, ip_cmds]
      simp [hm]
    · intro hmh
      rw [vt_pause, ip_pause, hmh]
      simp [hm]

/-- C5 counterexample: resuming at frame 1 of a 30 fps video at time
1000 ms sets the clock origin to 967 ms (the video position 100/3 ms is
truncated by the `(int)` cast to 33 ms), not to `now` minus the video
position: elapsed time right after the resume is 33 ms, not 100/3 ms. -/
theorem c5_counterexample :
    (spaceAction ⟨true, 30, fun _ => 1, fun _ => 0⟩
        ⟨false, true, true, fun _ => false, 1000, 1, 0, false, false, 0, 0,
          SubmitRes.success⟩
        ⟨⟨true, true, 2, 0, ⟨0, 0, 0⟩, true, [], 0, true⟩,
          true, true, false⟩).1.statics.startTime = 967 ∧
    getVideoTimeMs 1 30 = 100/3 ∧
    (spaceAction ⟨true, 30, fun _ => 1, fun _ => 0⟩
        ⟨false, true, true, fun _ => false, 1000, 1, 0, false, false, 0, 0,
          SubmitRes.success⟩
        ⟨⟨true, true, 2, 0, ⟨0, 0, 0⟩, true, [], 0, true⟩,
          true, true, false⟩).1.statics.startTime
      ≠ 1000 - getVideoTimeMs 1 30 ∧
    (1000 : Rat) - 967 ≠ getVideoTimeMs 1 30 := by
  have hval : (spaceAction ⟨true, 30, fun _ => 1, fun _ => 0⟩
      ⟨false, true, true, fun _ => false, 1000, 1, 0, false, false, 0, 0,
        SubmitRes.success⟩
      ⟨⟨true, true, 2, 0, ⟨0, 0, 0⟩, true, [], 0, true⟩,
        true, true, false⟩).1.statics.startTime = 967 := by
    show (1000 : Rat) - (cppTruncToInt (getVideoTimeMs 1 30) : Rat) = 967
    have h1 : getVideoTimeMs 1 30 = 100/3 := by norm_num [getVideoTimeMs]
    rw [h1]
    norm_num [cppTruncToInt]
  refine ⟨hval, by norm_num [getVideoTimeMs], ?_, by norm_num [getVideoTimeMs]⟩
  rw [hval]
  norm_num [getVideoTimeMs]

/-- C5 (amended): pressing the pause toggle while Paused and already
started resumes playback: the pause flag clears, the soundtrack is
played, and the playback-clock origin becomes `now` minus the video
position truncated to whole milliseconds by the `(int)` cast — so the
elapsed time immediately after the resume equals the truncated video
position, which is within 1 ms below the true video position (for a
positive frame rate).  Pressing it while Playing pauses playback and
pauses the soundtrack. -/
theorem c5_resume_clock (cfg : Cfg) (i : TickIn) (s : SessionSt)
    (hp : s.statics.pause = true) (hs : s.statics.started = true) :
    (spaceAction cfg i s).1.statics.pause = false ∧
    (spaceAction cfg i s).2 = [AudioCmd.play] ∧
    (spaceAction cfg i s).1.statics.startTime
      = i.now - (cppTruncToInt (getVideoTimeMs i.front cfg.fps) : Rat) ∧
    i.now - (spaceAction cfg i s).1.statics.startTime
      = (cppTruncToInt (getVideoTimeMs i.front cfg.fps) : Rat) ∧
    (0 < cfg.fps →
      getVideoTimeMs i.front cfg.fps - 1
          < (cppTruncToInt (getVideoTimeMs i.front cfg.fps) : Rat) ∧
        (cppTruncToInt (getVideoTimeMs i.front cfg.fps) : Rat)
          ≤ getVideoTimeMs i.front cfg.fps) ∧
    (∀ s2 : SessionSt, s2.statics.pause = false →
      (spaceAction cfg i s2).1.statics.pause = true ∧
        (spaceAction cfg i s2).2 = [AudioCmd.pauseAudio]) := by
  obtain ⟨oP, oS, oF, oT, oC⟩ := spaceAction_outcome cfg i s
  refine ⟨?_, ?_, ?_, ?_, ?_, ?_⟩
  · rw [oP, hp, hs]; rfl
  · rw [oC, hp, hs]; rfl
  · rw [oT, hp, hs]; rfl
  · rw [oT, hp, hs]
    show i.now - (i.now - _) = _
    ring
  · intro hfps
    have hnn : 0 ≤ getVideoTimeMs i.front cfg.fps := by
      unfold getVideoTimeMs
      positivity
    have htr : (cppTruncToInt (getVideoTimeMs i.front cfg.fps) : Rat)
        = (⌊getVideoTimeMs i.front cfg.fps⌋ : Rat) := by
      unfold cppTruncToInt
      rw [if_pos hnn]
    rw [htr]
    exact ⟨Int.sub_one_lt_floor _, Int.floor_le _⟩
  · intro s2 hp2
    obtain ⟨oP2, oS2, oF2, oT2, oC2⟩ := spaceAction_outcome cfg i s2
    rw [oP2, oC2, hp2]
    exact ⟨rfl, rfl⟩

/-- C5 witness: concrete resume at `now` 1000 ms, frame 1, 30 fps. -/
theorem c5_resume_clock_witness :
    (spaceAction ⟨true, 30, fun _ => 1, fun _ => 0⟩
        ⟨false, true, true, fun _ => false, 1000, 1, 0, false, false, 0, 0,
          SubmitRes.success⟩
        ⟨⟨true, true, 2, 0, ⟨0, 0, 0⟩, true, [], 0, true⟩,
          true, true, false⟩).1.statics.pause = false ∧
    (spaceAction ⟨true, 30, fun _ => 1, fun _ => 0⟩
        ⟨false, true, true, fun _ => false, 1000, 1, 0, false, false, 0, 0,
          SubmitRes.success⟩
        ⟨⟨true, true, 2, 0, ⟨0, 0, 0⟩, true, [], 0, true⟩,
          true, true, false⟩).2 = [AudioCmd.play] ∧
    (1000 : Rat) - (spaceAction ⟨true, 30, fun _ => 1, fun _ => 0⟩
        ⟨false, true, true, fun _ => false, 1000, 1, 0, false, false, 0, 0,
          SubmitRes.success⟩
        ⟨⟨true, true, 2, 0, ⟨0, 0, 0⟩, true, [], 0, true⟩,
          true, true, false⟩).1.statics.startTime
      = (cppTruncToInt (getVideoTimeMs 1 30) : Rat) := by
  have h := c5_resume_clock ⟨true, 30, fun _ => 1, fun _ => 0⟩
    ⟨false, true, true, fun _ => false, 1000, 1, 0, false, false, 0, 0,
      SubmitRes.success⟩
    ⟨⟨true, true, 2, 0, ⟨0, 0, 0⟩, true, [], 0, true⟩, true, true, false⟩ rfl rfl
  exact ⟨h.1, h.2.1, h.2.2.2.1⟩

/-- The drift-delay flag reported by a visible tick. -/
theorem visibleTick_delay (cfg : Cfg) (i : TickIn) (s : SessionSt) :
    (visibleTick cfg i s).2.driftDelay
      = (driftStep (inputPhase cfg i s).1.menuHidden (inputPhase cfg i s).1.statics.pause
          i.front cfg.fps i.now (inputPhase cfg i s).1.statics.startTime i.audioTimeMs
          i.audioIsPlaying).delayNextFrame := rfl

/-- C9: frame advance is gated only on the delay flag, the pause flag and
the source being multi-frame — not on menu visibility.  On a tick whose
input phase leaves the menu visible but the pause flag clear (e.g. the
pause toggle pressed again during the menu fade-out), the video advances
(retire, promote, one new load) while the drift corrector, which does
require the menu to be hidden, does nothing: no delay, no clock reset, no
audio command. -/
theorem c9_advance_with_menu_visible (cfg : Cfg) (i : TickIn) (s : SessionSt)
    (hmh : (inputPhase cfg i s).1.menuHidden = false)
    (hp : (inputPhase cfg i s).1.statics.pause = false)
    (hmulti : cfg.multiFrame = true) :
    (visibleTick cfg i s).2.frameEvents
      = [FrameEv.destroyFrame, FrameEv.endLoad, FrameEv.beginLoad] ∧
    (visibleTick cfg i s).2.driftDelay = false ∧
    (visibleTick cfg i s).1.statics.startTime = (inputPhase cfg i s).1.statics.startTime ∧
    (visibleTick cfg i s).2.audioCmds = (inputPhase cfg i s).2 := by
  have hd : driftStep (inputPhase cfg i s).1.menuHidden (inputPhase cfg i s).1.statics.pause
      i.front cfg.fps i.now (inputPhase cfg i s).1.statics.startTime i.audioTimeMs
      i.audioIsPlaying
      = { delayNextFrame := false,
          startTime := (inputPhase cfg i s).1.statics.startTime, audioCmds := [] } := by
    rw [hmh]
    unfold driftStep
    simp
  refine ⟨?_, ?_, ?_, ?_⟩
  · rw [visibleTick_frames, hd, hp, hmulti]
    simp
  · rw [visibleTick_delay, hd]
  · rw [visibleTick_startTime, hd]
  · rw [visibleTick_audio, hd]
    simp

/-- C9 witness: a multi-frame tick with the menu still visible and
playback unpaused advances the video and skips drift correction. -/
theorem c9_advance_with_menu_visible_witness :
    (visibleTick ⟨true, 30, fun _ => 1, fun _ => 0⟩
        ⟨false, true, true, fun _ => false, 0, 1, 0, false, false, 0, 0,
          SubmitRes.success⟩
        ⟨⟨false, true, 2, 0, ⟨0, 0, 0⟩, true, [], 0, true⟩,
          false, true, false⟩).2.frameEvents
      = [FrameEv.destroyFrame, FrameEv.endLoad, FrameEv.beginLoad] ∧
    (visibleTick ⟨true, 30, fun _ => 1, fun _ => 0⟩
        ⟨false, true, true, fun _ => false, 0, 1, 0, false, false, 0, 0,
          SubmitRes.success⟩
        ⟨⟨false, true, 2, 0, ⟨0, 0, 0⟩, true, [], 0, true⟩,
          false, true, false⟩).2.driftDelay = false := by
  have h := c9_advance_with_menu_visible ⟨true, 30, fun _ => 1, fun _ => 0⟩
    ⟨false, true, true, fun _ => false, 0, 1, 0, false, false, 0, 0, SubmitRes.success⟩
    ⟨⟨false, true, 2, 0, ⟨0, 0, 0⟩, true, [], 0, true⟩, false, true, false⟩
    rfl rfl rfl
  exact ⟨h.1, h.2.1⟩

/-- C7: with `fade` in its legal domain, a visible tick keeps it there;
when the scene is rendered (menu hidden) the displacement passed for each
eye equals `kHeadboxFade` times the tracked eye-position magnitude when
fade is enabled and 0 when it is disabled (the code uses the first eye's
tracked position for both eyes); when the menu is visible the menu is
drawn instead and no scene displacement exists; and the fade-toggle key
swaps the two modes. -/
theorem c7_headbox_fade (cfg : Cfg) (i : TickIn) (s : SessionSt)
    (hdom : s.statics.fade = 0 ∨ s.statics.fade = kHeadboxFade) :
    ((visibleTick cfg i s).1.statics.fade = 0 ∨
      (visibleTick cfg i s).1.statics.fade = kHeadboxFade) ∧
    ((visibleTick cfg i s).1.menuHidden = true →
      (visibleTick cfg i s).2.sceneDisplacements
        = [if (visibleTick cfg i s).1.statics.fade ≠ 0 then
             (kHeadboxFade : Rat) * i.eyePosMag0 else 0,
           if (visibleTick cfg i s).1.statics.fade ≠ 0 then
             (kHeadboxFade : Rat) * i.eyePosMag0 else 0]) ∧
    ((visibleTick cfg i s).1.menuHidden = false →
      (visibleTick cfg i s).2.sceneDisplacements = [] ∧
      (visibleTick cfg i s).2.menuDrawn = true) ∧
    toggleFade kHeadboxFade = 0 ∧ toggleFade 0 = kHeadboxFade := by
  obtain ⟨mp_mh, mp_fo, mp_st, mp_time, mp_dep, mp_si, mp_ypi, mp_fade, mp_pause, mp_cmds⟩ :=
    mountPhase_spec i (keyPhase cfg i (yawPosPhase s))
  obtain ⟨me_st, me_time, me_dep, me_si, me_ypi, me_fade, me_fo, me_mh, me_pause⟩ :=
    menuPhase_spec i (mountPhase i (keyPhase cfg i (yawPosPhase s))).1
  obtain ⟨yp_pause, yp_started, yp_time, yp_fo, yp_mh, yp_dep, yp_si, yp_fade⟩ :=
    yawPosPhase_pres s
  obtain ⟨vt_mh, vt_pause, vt_started, vt_fo, vt_dep, vt_si, vt_ypi, vt_fade⟩ :=
    visibleTick_fst cfg i s
  have hfe : (visibleTick cfg i s).1.statics.fade
      = (keyPhase cfg i (yawPosPhase s)).1.statics.fade := by
    rw [vt_fade, inputPhase_def]
    show (menuPhase i (mountPhase i (keyPhase cfg i (yawPosPhase s))).1).statics.fade = _
    rw [me_fade, mp_fade]
  have hdom0 : (yawPosPhase s).statics.fade = 0 ∨
      (yawPosPhase s).statics.fade = kHeadboxFade := by rw [yp_fade]; exact hdom
  have hdomk := (keyPhase_pres cfg i (yawPosPhase s)).2.2.2.2 hdom0
  have hdom' : (visibleTick cfg i s).1.statics.fade = 0 ∨
      (visibleTick cfg i s).1.statics.fade = kHeadboxFade := by
    rw [hfe]; exact hdomk
  refine ⟨hdom', ?_, ?_, toggleFade_swap.1, toggleFade_swap.2⟩
  · intro hmh
    rw [vt_mh] at hmh
    rw [visibleTick_disp, hmh]
    have hif : ((inputPhase cfg i s).1.statics.fade : Rat)
        = (visibleTick cfg i s).1.statics.fade := by rw [vt_fade]
    simp only [if_pos rfl, hif]
    rcases hdom' with h | h <;> rw [h]
    · norm_num
    · norm_num [kHeadboxFade]
  · intro hmh
    rw [vt_mh] at hmh
    rw [visibleTick_disp, visibleTick_menuDrawn, hmh]
    simp

/-- C7 witness: fade enabled, menu hidden, eye-position magnitude 3: the
displacement for both eyes is 6. -/
theorem c7_headbox_fade_witness :
    (visibleTick ⟨true, 30, fun _ => 1, fun _ => 0⟩
        ⟨false, true, true, fun _ => false, 0, 1, 0, false, false, 3, 3,
          SubmitRes.success⟩
        ⟨⟨false, true, 2, 0, ⟨0, 0, 0⟩, true, [], 0, true⟩,
          true, true, false⟩).2.sceneDisplacements
      = [if (visibleTick ⟨true, 30, fun _ => 1, fun _ => 0⟩
            ⟨false, true, true, fun _ => false, 0, 1, 0, false, false, 3, 3,
              SubmitRes.success⟩
            ⟨⟨false, true, 2, 0, ⟨0, 0, 0⟩, true, [], 0, true⟩,
              true, true, false⟩).1.statics.fade ≠ 0 then
           (kHeadboxFade : Rat) * 3 else 0,
         if (visibleTick ⟨true, 30, fun _ => 1, fun _ => 0⟩
            ⟨false, true, true, fun _ => false, 0, 1, 0, false, false, 3, 3,
              SubmitRes.success⟩
            ⟨⟨false, true, 2, 0, ⟨0, 0, 0⟩, true, [], 0, true⟩,
              true, true, false⟩).1.statics.fade ≠ 0 then
           (kHeadboxFade : Rat) * 3 else 0] := by
  have h := c7_headbox_fade ⟨true, 30, fun _ => 1, fun _ => 0⟩
    ⟨false, true, true, fun _ => false, 0, 1, 0, false, false, 3, 3, SubmitRes.success⟩
    ⟨⟨false, true, 2, 0, ⟨0, 0, 0⟩, true, [], 0, true⟩, true, true, false⟩
    (Or.inr rfl)
  exact h.2.1 rfl

/-- A visible tick never changes the statics-initialized marker. -/
theorem visibleTick_staticsInit (cfg : Cfg) (i : TickIn) (s : SessionSt) :
    (visibleTick cfg i s).1.statics.staticsInit = s.statics.staticsInit := by
  obtain ⟨mp_mh, mp_fo, mp_st, mp_time, mp_dep, mp_si, mp_ypi, mp_fade, mp_pause, mp_cmds⟩ :=
    mountPhase_spec i (keyPhase cfg i (yawPosPhase s))
  obtain ⟨me_st, me_time, me_dep, me_si, me_ypi, me_fade, me_fo, me_mh, me_pause⟩ :=
    menuPhase_spec i (mountPhase i (keyPhase cfg i (yawPosPhase s))).1
  have hvt := (visibleTick_fst cfg i s).2.2.2.2.2.1
  rw [hvt, inputPhase_def]
  show (menuPhase i (mountPhase i (keyPhase cfg i (yawPosPhase s))).1).statics.staticsInit = _
  rw [me_si, mp_si, (keyPhase_pres cfg i (yawPosPhase s)).2.2.1,
    (yawPosPhase_pres s).2.2.2.2.2.2.1]

/-- The tick loop never changes the statics-initialized marker. -/
theorem runTicks_staticsInit (cfg : Cfg) :
    ∀ (is : List TickIn) (s : SessionSt),
      (runTicks cfg s is).1.statics.staticsInit = s.statics.staticsInit
  | [], s => rfl
  | i :: is, s => by
    cases hq : i.shouldQuit <;> cases hv : i.isVisible <;> cases hs : i.submitRes <;>
      simp [runTicks, hq, hv, hs, runTicks_staticsInit cfg is,
        visibleTick_staticsInit]

/-- `MainLoop` entry leaves the statics-initialized marker set. -/
theorem mainLoopEntry_staticsInit (g : Statics) :
    (mainLoopEntry g).statics.staticsInit = true := by
  unfold mainLoopEntry
  split_ifs with h
  · exact h
  · rfl

/-- Each visible tick contributes either no frame events or exactly the
retire-promote-load triple. -/
theorem visibleTick_frames_shape (cfg : Cfg) (i : TickIn) (s : SessionSt) :
    (visibleTick cfg i s).2.frameEvents = [] ∨
    (visibleTick cfg i s).2.frameEvents
      = [FrameEv.destroyFrame, FrameEv.endLoad, FrameEv.beginLoad] := by
  rw [visibleTick_frames]
  split_ifs with h
  · exact Or.inr rfl
  · exact Or.inl rfl

/-- A single-frame source never triggers loads inside the tick loop. -/
theorem visibleTick_frames_single (cfg : Cfg) (i : TickIn) (s : SessionSt)
    (h : cfg.multiFrame = false) : (visibleTick cfg i s).2.frameEvents = [] := by
  rw [visibleTick_frames, h]
  simp

/-- Every tick output in a loop trace has the empty-or-triple frame shape. -/
theorem runTicks_trace_shape (cfg : Cfg) :
    ∀ (is : List TickIn) (s : SessionSt) (o : TickOut), o ∈ (runTicks cfg s is).2.2 →
      (o.frameEvents = [] ∨
       o.frameEvents = [FrameEv.destroyFrame, FrameEv.endLoad, FrameEv.beginLoad])
  | [], s, o, h => absurd h (List.not_mem_nil o)
  | i :: is, s, o, h => by
    cases hq : i.shouldQuit <;> cases hv : i.isVisible <;> cases hs : i.submitRes <;>
      simp only [runTicks, hq, hv, hs, Bool.false_eq_true, if_false, if_true,
        List.not_mem_nil] at h
    all_goals
      first
      | exact absurd h (List.not_mem_nil o)
      | exact runTicks_trace_shape cfg is s o h
      | (rcases List.mem_cons.mp h with he | hm
         · rw [he]; exact visibleTick_frames_shape cfg i s
         · exact runTicks_trace_shape cfg is (visibleTick cfg i s).1 o hm)
      | (rcases List.mem_singleton.mp h ▸ visibleTick_frames_shape cfg i s with h1 | h1
         · exact Or.inl h1
         · exact Or.inr h1)

/-- For a single-frame source the loop trace contains no frame events. -/
theorem runTicks_trace_single (cfg : Cfg) (hm : cfg.multiFrame = false) :
    ∀ (is : List TickIn) (s : SessionSt),
      traceFrameEvents (runTicks cfg s is).2.2 = []
  | [], s => rfl
  | i :: is, s => by
    cases hq : i.shouldQuit <;> cases hv : i.isVisible <;> cases hs : i.submitRes <;>
      simp [runTicks, hq, hv, hs, traceFrameEvents, runTicks_trace_single cfg hm is,
        visibleTick_frames_single cfg i s hm]

/-- `inFlight` adds over concatenation. -/
theorem inFlight_append (a b : List FrameEv) :
    inFlight (a ++ b) = inFlight a + inFlight b := by
  unfold inFlight
  rw [List.count_append, List.count_append]
  push_cast
  ring

/-- Any prefix of the retire-promote-load triple has at most zero net
in-flight effect. -/
theorem inFlight_take_triple :
    ∀ n, inFlight ([FrameEv.destroyFrame, FrameEv.endLoad, FrameEv.beginLoad].take n) ≤ 0
  | 0 => by decide
  | 1 => by decide
  | 2 => by decide
  | (n+3) => by
    rw [List.take_of_length_le (by simp)]
    decide

/-- Any prefix of the frame events of a loop trace has at most zero net
in-flight effect. -/
theorem traceFrameEvents_take_le :
    ∀ (l : List TickOut),
      (∀ o ∈ l, o.frameEvents = [] ∨
        o.frameEvents = [FrameEv.destroyFrame, FrameEv.endLoad, FrameEv.beginLoad]) →
      ∀ n, inFlight ((traceFrameEvents l).take n) ≤ 0
  | [], _, n => by
    show inFlight (List.take n []) ≤ 0
    rw [List.take_nil]
    decide
  | o :: l, h, n => by
    have ho := h o (List.mem_cons_self o l)
    have hl : ∀ o2 ∈ l, o2.frameEvents = [] ∨
        o2.frameEvents = [FrameEv.destroyFrame, FrameEv.endLoad, FrameEv.beginLoad] :=
      fun o2 m => h o2 (List.mem_cons_of_mem _ m)
    show inFlight ((o.frameEvents ++ traceFrameEvents l).take n) ≤ 0
    rw [List.take_append_eq_append_take, inFlight_append]
    have h2 := traceFrameEvents_take_le l hl (n - o.frameEvents.length)
    have h1 : inFlight (o.frameEvents.take n) ≤ 0 := by
      rcases ho with ho | ho
      · rw [ho, List.take_nil]; decide
      · rw [ho]; exact inFlight_take_triple n
    omega

/-- Any prefix of the startup loads keeps at most three requests in
flight. -/
theorem inFlight_take_init (m : Bool) :
    ∀ n, inFlight ((initFrameEvents m).take n) ≤ 3 := by
  intro n
  cases m <;> unfold initFrameEvents <;>
    match n with
    | 0 => decide
    | 1 => decide
    | 2 => decide
    | (k+3) => (rw [List.take_of_length_le (by simp)]; decide)

/-- C3: the in-flight request count over any prefix of a multi-frame
session's frame events never exceeds the readahead depth 3; a
single-frame session performs exactly one `readBegin`/`readEnd` pair (at
startup) and no loads inside the tick loop; and every tick either leaves
the pipeline alone or retires the current frame, then completes the next
load, then issues exactly one new load, in that order. -/
theorem c3_readahead_window (cfg : Cfg) (g : Statics) (is : List TickIn) :
    (cfg.multiFrame = true →
      ∀ n, inFlight ((sessionFrameEvents cfg g is).take n) ≤ 3) ∧
    (cfg.multiFrame = false →
      sessionFrameEvents cfg g is = [FrameEv.beginLoad, FrameEv.endLoad]) ∧
    (∀ (i : TickIn) (s : SessionSt),
      (visibleTick cfg i s).2.frameEvents = [] ∨
      (visibleTick cfg i s).2.frameEvents
        = [FrameEv.destroyFrame, FrameEv.endLoad, FrameEv.beginLoad]) ∧
    (cfg.multiFrame = false →
      ∀ (i : TickIn) (s : SessionSt), (visibleTick cfg i s).2.frameEvents = []) := by
  refine ⟨?_, ?_, fun i s => visibleTick_frames_shape cfg i s,
    fun h i s => visibleTick_frames_single cfg i s h⟩
  · intro hm n
    unfold sessionFrameEvents
    rw [List.take_append_eq_append_take, inFlight_append]
    have h1 := inFlight_take_init cfg.multiFrame n
    have h2 := traceFrameEvents_take_le (runTicks cfg (mainLoopEntry g) is).2.2
      (fun o m => runTicks_trace_shape cfg is (mainLoopEntry g) o m)
      (n - (initFrameEvents cfg.multiFrame).length)
    omega
  · intro hm
    unfold sessionFrameEvents
    rw [runTicks_trace_single cfg hm is (mainLoopEntry g), hm]
    rfl

/-- C3 witness: a two-tick multi-frame session keeps at most three loads
in flight over the five-event prefix. -/
theorem c3_readahead_window_witness :
    inFlight ((sessionFrameEvents ⟨true, 30, fun _ => 1, fun _ => 0⟩
      ⟨true, true, 2, 0, ⟨0, 0, 0⟩, true, [], 0, true⟩
      [⟨false, true, true, fun _ => false, 0, 1, 0, false, false, 0, 0,
        SubmitRes.success⟩]).take 5) ≤ 3 :=
  (c3_readahead_window ⟨true, 30, fun _ => 1, fun _ => 0⟩
    ⟨true, true, 2, 0, ⟨0, 0, 0⟩, true, [], 0, true⟩
    [⟨false, true, true, fun _ => false, 0, 1, 0, false, false, 0, 0,
      SubmitRes.success⟩]).1 rfl 5

/-- Running the loop on a concatenation whose first part neither quits nor
fails a submission processes the parts in sequence and concatenates their
traces. -/
theorem runTicks_append (cfg : Cfg) :
    ∀ (pre l : List TickIn) (s : SessionSt),
      (∀ j ∈ pre, j.shouldQuit = false ∧
        (j.isVisible = true → j.submitRes = SubmitRes.success)) →
      runTicks cfg s (pre ++ l)
        = ((runTicks cfg (runTicks cfg s pre).1 l).1,
           (runTicks cfg (runTicks cfg s pre).1 l).2.1,
           (runTicks cfg s pre).2.2 ++ (runTicks cfg (runTicks cfg s pre).1 l).2.2)
  | [], l, s, _ => rfl
  | i :: pre, l, s, h => by
    have hi := h i (List.mem_cons_self i pre)
    have hpre : ∀ j ∈ pre, j.shouldQuit = false ∧
        (j.isVisible = true → j.submitRes = SubmitRes.success) :=
      fun j m => h j (List.mem_cons_of_mem _ m)
    have ih := runTicks_append cfg pre l (visibleTick cfg i s).1 hpre
    have ih2 := runTicks_append cfg pre l s hpre
    rw [List.cons_append]
    cases hv : i.isVisible
    · simp [runTicks, hi.1, hv, runTicks_append cfg pre l s hpre]
    · have hs : i.submitRes = SubmitRes.success := hi.2 hv
      simp [runTicks, hi.1, hv, hs, ih]

/-- C8: when the external should-quit signal is observed the tick loop
stops at once — the state is untouched, no tick output (no frame loads, no
render submission) is produced from that tick on, and `MainLoop` returns
the no-retry result `false` (the last submission result was a success, so
the `DisplayLost` disjunct at the return is false); a display-lost
submission failure instead exits with the retry result `true`, distinct
from the quit result; and a prefix of normal ticks merely composes, so
these statements apply at any point of the session. -/
theorem c8_quit_vs_display_lost (cfg : Cfg) (rc : Bool) (s : SessionSt) (i : TickIn)
    (is : List TickIn) :
    (i.shouldQuit = true →
      runTicks cfg s (i :: is) = (s, LoopExit.quitReq, []) ∧
      mainLoopReturn rc LoopExit.quitReq = false) ∧
    (i.shouldQuit = false → i.isVisible = true →
      i.submitRes = SubmitRes.displayLost →
      (runTicks cfg s (i :: is)).2.1 = LoopExit.lostDisplay ∧
      (runTicks cfg s (i :: is)).2.2 = [(visibleTick cfg i s).2] ∧
      mainLoopReturn rc LoopExit.lostDisplay = true ∧
      mainLoopReturn rc LoopExit.lostDisplay ≠ mainLoopReturn rc LoopExit.quitReq) ∧
    (∀ pre l : List TickIn,
      (∀ j ∈ pre, j.shouldQuit = false ∧
        (j.isVisible = true → j.submitRes = SubmitRes.success)) →
      runTicks cfg s (pre ++ l)
        = ((runTicks cfg (runTicks cfg s pre).1 l).1,
           (runTicks cfg (runTicks cfg s pre).1 l).2.1,
           (runTicks cfg s pre).2.2 ++ (runTicks cfg (runTicks cfg s pre).1 l).2.2)) := by
  refine ⟨?_, ?_, fun pre l hn => runTicks_append cfg pre l s hn⟩
  · intro hq
    constructor
    · simp [runTicks, hq]
    · rfl
  · intro hq hv hs
    refine ⟨?_, ?_, rfl, by simp [mainLoopReturn]⟩
    · simp [runTicks, hq, hv, hs]
    · simp [runTicks, hq, hv, hs]

/-- C8 witness: a quitting tick ends the loop with no outputs and the
no-retry result; a display-lost tick yields the retry result. -/
theorem c8_quit_vs_display_lost_witness :
    (runTicks ⟨true, 30, fun _ => 1, fun _ => 0⟩
        ⟨⟨true, true, 2, 0, ⟨0, 0, 0⟩, true, [], 0, true⟩, false, false, false⟩
        [⟨true, true, true, fun _ => false, 0, 1, 0, false, false, 0, 0,
          SubmitRes.success⟩]
      = (⟨⟨true, true, 2, 0, ⟨0, 0, 0⟩, true, [], 0, true⟩, false, false, false⟩,
         LoopExit.quitReq, []) ∧
     mainLoopReturn true LoopExit.quitReq = false) ∧
    (runTicks ⟨true, 30, fun _ => 1, fun _ => 0⟩
        ⟨⟨true, true, 2, 0, ⟨0, 0, 0⟩, true, [], 0, true⟩, false, false, false⟩
        [⟨false, true, true, fun _ => false, 0, 1, 0, false, false, 0, 0,
          SubmitRes.displayLost⟩]).2.1 = LoopExit.lostDisplay ∧
    mainLoopReturn true LoopExit.lostDisplay = true := by
  refine ⟨?_, ?_, ?_⟩
  · exact (c8_quit_vs_display_lost ⟨true, 30, fun _ => 1, fun _ => 0⟩ true
      ⟨⟨true, true, 2, 0, ⟨0, 0, 0⟩, true, [], 0, true⟩, false, false, false⟩
      ⟨true, true, true, fun _ => false, 0, 1, 0, false, false, 0, 0,
        SubmitRes.success⟩ []).1 rfl
  · exact ((c8_quit_vs_display_lost ⟨true, 30, fun _ => 1, fun _ => 0⟩ true
      ⟨⟨true, true, 2, 0, ⟨0, 0, 0⟩, true, [], 0, true⟩, false, false, false⟩
      ⟨false, true, true, fun _ => false, 0, 1, 0, false, false, 0, 0,
        SubmitRes.displayLost⟩ []).2.1 rfl rfl rfl).1
  · exact ((c8_quit_vs_display_lost ⟨true, 30, fun _ => 1, fun _ => 0⟩ true
      ⟨⟨true, true, 2, 0, ⟨0, 0, 0⟩, true, [], 0, true⟩, false, false, false⟩
      ⟨false, true, true, fun _ => false, 0, 1, 0, false, false, 0, 0,
        SubmitRes.displayLost⟩ []).2.1 rfl rfl rfl).2.2.1

/-- C10: the statics (`pause`, `started`, `fade`, `Yaw`, `Pos2`, the
depressed-key set and the clock origin) persist across a re-entry of
`MainLoop`: after any invocation the statics-initialized marker is set,
and entry with the marker set leaves every static exactly as the previous
invocation left it; only a process-fresh entry (marker clear) installs the
initial values `pause = true`, `started = false`, `fade = kHeadboxFade`. -/
theorem c10_statics_persist (cfg : Cfg) (rc : Bool) (g : Statics) (is : List TickIn) :
    (mainLoopEntry (mainLoopModel cfg rc g is).1.statics).statics
      = (mainLoopModel cfg rc g is).1.statics ∧
    (mainLoopModel cfg rc g is).1.statics.staticsInit = true ∧
    (∀ g2 : Statics, g2.staticsInit = true → (mainLoopEntry g2).statics = g2) ∧
    (∀ g2 : Statics, g2.staticsInit = false →
      (mainLoopEntry g2).statics.pause = true ∧
      (mainLoopEntry g2).statics.started = false ∧
      (mainLoopEntry g2).statics.fade = kHeadboxFade) := by
  have hre : ∀ g2 : Statics, g2.staticsInit = true → (mainLoopEntry g2).statics = g2 := by
    intro g2 h2
    unfold mainLoopEntry
    rw [if_pos h2]
  have hinit : (mainLoopModel cfg rc g is).1.statics.staticsInit = true := by
    show (runTicks cfg (mainLoopEntry g) is).1.statics.staticsInit = true
    rw [runTicks_staticsInit cfg is (mainLoopEntry g)]
    exact mainLoopEntry_staticsInit g
  refine ⟨hre _ hinit, hinit, hre, ?_⟩
  intro g2 h2
  unfold mainLoopEntry initStatics
  rw [if_neg (by simp [h2])]
  exact ⟨rfl, rfl, rfl⟩

/-- C10 witness: a concrete statics record with the marker set is left
untouched by `MainLoop` entry, and a fresh record gets the initial values. -/
theorem c10_statics_persist_witness :
    (mainLoopEntry ⟨false, true, 0, 7, ⟨1, 2, 3⟩, true, [' '], 55, true⟩).statics
      = ⟨false, true, 0, 7, ⟨1, 2, 3⟩, true, [' '], 55, true⟩ ∧
    (mainLoopEntry ⟨false, true, 0, 7, ⟨1, 2, 3⟩, true, [' '], 55, false⟩).statics.pause
      = true := by
  constructor
  · exact (c10_statics_persist ⟨true, 30, fun _ => 1, fun _ => 0⟩ false
      ⟨false, true, 0, 7, ⟨1, 2, 3⟩, true, [' '], 55, true⟩ []).2.2.1
      ⟨false, true, 0, 7, ⟨1, 2, 3⟩, true, [' '], 55, true⟩ rfl
  · exact ((c10_statics_persist ⟨true, 30, fun _ => 1, fun _ => 0⟩ false
      ⟨false, true, 0, 7, ⟨1, 2, 3⟩, true, [' '], 55, true⟩ []).2.2.2
      ⟨false, true, 0, 7, ⟨1, 2, 3⟩, true, [' '], 55, false⟩ rfl).1

/-- C4 witness: with the menu hidden, playback running and the headset
unmounted, the tick pauses the soundtrack and forces the Paused state
(Playing to Paused, an allowed edge), overriding the (empty) key input. -/
theorem c4_transitions_witness :
    AudioCmd.pauseAudio ∈ (visibleTick ⟨true, 30, fun _ => 1, fun _ => 0⟩
        ⟨false, true, false, fun _ => false, 0, 1, 0, false, false, 0, 0,
          SubmitRes.success⟩
        ⟨⟨false, true, 2, 0, ⟨0, 0, 0⟩, true, [], 0, true⟩,
          true, true, false⟩).2.audioCmds ∧
    (visibleTick ⟨true, 30, fun _ => 1, fun _ => 0⟩
        ⟨false, true, false, fun _ => false, 0, 1, 0, false, false, 0, 0,
          SubmitRes.success⟩
        ⟨⟨false, true, 2, 0, ⟨0, 0, 0⟩, true, [], 0, true⟩,
          true, true, false⟩).1.statics.pause = true ∧
    allowedEdge
      (playbackState ⟨⟨false, true, 2, 0, ⟨0, 0, 0⟩, true, [], 0, true⟩,
        true, true, false⟩)
      (playbackState (visibleTick ⟨true, 30, fun _ => 1, fun _ => 0⟩
        ⟨false, true, false, fun _ => false, 0, 1, 0, false, false, 0, 0,
          SubmitRes.success⟩
        ⟨⟨false, true, 2, 0, ⟨0, 0, 0⟩, true, [], 0, true⟩,
          true, true, false⟩).1) := by
  have h := c4_transitions ⟨true, 30, fun _ => 1, fun _ => 0⟩
    ⟨false, true, false, fun _ => false, 0, 1, 0, false, false, 0, 0,
      SubmitRes.success⟩
    ⟨⟨false, true, 2, 0, ⟨0, 0, 0⟩, true, [], 0, true⟩, true, true, false⟩
  exact ⟨(h.2.2.2.2 rfl).1, (h.2.2.2.2 rfl).2 rfl, h.1⟩
